import Mathlib

/-!
Shallow embedding of the Visit & Billing core of `src/app.py` (a FastAPI +
SQLite clinic application).  The SQLite tables become lists of rows; each
endpoint handler becomes a Lean function on an explicit `DB` state.  SQLite
`REAL` columns and Python `float` values are idealised as exact rationals
(`ℚ`); integers are `ℤ`/`ℕ`.  A handler that raises `HTTPException` performs
`conn.rollback()` before re-raising, so each endpoint is modelled as a
transaction body returning `Except` plus a wrapper that restores the original
state on error.  Python truthiness tests (`if visit.get('patient_name'):`)
are modelled by explicit `truthy` helpers on `Option` values.  Authorization
guards (`user['role']` checks) are orthogonal to the claims and are omitted;
`recorded_by` keeps the acting user's id where the SQL writes it.
-/

/-- Payment status strings stored by `app.py`:
`'n/a'`, `'paid'`, `'partially paid'`, `'pending'`. -/
inductive PayStatus where
  | na
  | paid
  | partiallyPaid
  | pending
deriving DecidableEq, Repr

/-- Row of the `remedies` table. -/
structure Remedy where
  name : String
  barcode : Option String
  potency : Option String
  description : Option String
  current_unit_price : ℚ
  stock_quantity : ℤ
deriving DecidableEq, Repr

/-- Row of the `patients` table (fields touched by the visit endpoints). -/
structure Patient where
  name : String
  age : Option ℤ
  phone : Option String
  gender : Option String
deriving DecidableEq, Repr

/-- Row of the `visits` table. -/
structure Visit where
  patient_id : ℕ
  visit_date : String
  chief_complaint : String
  diagnosis : String
  notes : String
  recorded_by : Option ℕ
deriving DecidableEq, Repr

/-- Row of the `visit_medicines` table. -/
structure VisitMedicine where
  visit_id : ℕ
  remedy_id : ℕ
  quantity : ℤ
  unit_price_snapshot : ℚ
  line_total : ℚ
deriving DecidableEq, Repr

/-- Row of the `payments` table.  `create_visit` inserts without
`patient_id`/`recorded_by`; `update_visit` writes them, hence `Option`. -/
structure Payment where
  visit_id : ℕ
  patient_id : Option ℕ
  consultation_fee : ℚ
  medicine_bill : ℚ
  amount_paid : ℚ
  due_amount : ℚ
  total_bill : ℚ
  status : PayStatus
  recorded_by : Option ℕ
deriving DecidableEq, Repr

/-- The database state: keyed tables are association lists (id, row);
`nextVisitId` models SQLite's `lastrowid` for the `visits` table. -/
structure DB where
  remedies : List (ℕ × Remedy)
  patients : List (ℕ × Patient)
  visits : List (ℕ × Visit)
  visit_medicines : List VisitMedicine
  payments : List Payment
  nextVisitId : ℕ
deriving DecidableEq, Repr

/-- `SELECT ... FROM remedies WHERE id = ?` + `fetchone`. -/
def DB.findRemedy (db : DB) (rid : ℕ) : Option Remedy :=
  (db.remedies.find? (fun p => p.1 == rid)).map (·.2)

/-- `SELECT * FROM patients WHERE id = ?` + `fetchone`. -/
def DB.findPatient (db : DB) (pid : ℕ) : Option Patient :=
  (db.patients.find? (fun p => p.1 == pid)).map (·.2)

/-- `SELECT * FROM visits WHERE id = ?` + `fetchone`. -/
def DB.findVisit (db : DB) (vid : ℕ) : Option Visit :=
  (db.visits.find? (fun p => p.1 == vid)).map (·.2)

/-- `SELECT * FROM payments WHERE visit_id = ?` + `fetchone`. -/
def DB.findPayment (db : DB) (vid : ℕ) : Option Payment :=
  db.payments.find? (fun p => p.visit_id == vid)

/-- First-match view of a remedy's stock (0 when the id is unknown). -/
def stockOf (db : DB) (rid : ℕ) : ℤ :=
  ((db.findRemedy rid).map (·.stock_quantity)).getD 0

/-- First-match view of a remedy's current unit price. -/
def priceOf (db : DB) (rid : ℕ) : ℚ :=
  ((db.findRemedy rid).map (·.current_unit_price)).getD 0

/-- `UPDATE remedies SET stock_quantity = stock_quantity + ? WHERE id = ?`
(the visit code uses it with `-qty` to decrement and `+qty` to restore). -/
def DB.adjustStock (db : DB) (rid : ℕ) (delta : ℤ) : DB :=
  { db with remedies := db.remedies.map (fun p =>
      if p.1 == rid then (p.1, { p.2 with stock_quantity := p.2.stock_quantity + delta }) else p) }

/-- `UPDATE patients SET <field> = ? WHERE id = ?`. -/
def DB.updPatient (db : DB) (pid : ℕ) (f : Patient → Patient) : DB :=
  { db with patients := db.patients.map (fun p => if p.1 == pid then (p.1, f p.2) else p) }

/-- `INSERT INTO visit_medicines ...`. -/
def DB.addVisitMedicine (db : DB) (m : VisitMedicine) : DB :=
  { db with visit_medicines := db.visit_medicines ++ [m] }

/-- Python truthiness of an optional string (`None` and `''` are falsy). -/
def truthyS : Option String → Bool
  | none => false
  | some s => s != ""

/-- Python truthiness of an optional integer (`None` and `0` are falsy). -/
def truthyI : Option ℤ → Bool
  | none => false
  | some n => n != 0

/-- Python truthiness of an optional id (`None` and `0` are falsy). -/
def truthyN : Option ℕ → Bool
  | none => false
  | some n => n != 0

/-- `visit.get('visit_date') or datetime.now().isoformat()`. -/
def orNow (v : Option String) (now : String) : String :=
  if truthyS v then v.getD "" else now

/-- One element of the request's `medicines` list: `item['remedy_id']`
is mandatory, `item.get('quantity', 1)` defaults to 1. -/
structure MedItem where
  remedy_id : ℕ
  quantity : Option ℤ
deriving DecidableEq, Repr

/-- JSON body of `POST /api/visits` (fields read by `create_visit`). -/
structure VisitReq where
  patient_id : ℕ
  patient_name : Option String
  patient_phone : Option String
  patient_age : Option ℤ
  patient_gender : Option String
  visit_date : Option String
  chief_complaint : Option String
  diagnosis : Option String
  notes : Option String
  medicines : Option (List MedItem)
  consultation_fee : Option ℚ
  amount_paid : Option ℚ
deriving DecidableEq, Repr

/-- Errors raised (as `HTTPException`) by the visit/payment endpoints. -/
inductive VErr where
  | patientNotFound
  | insufficientStock (remedyId : ℕ)
  | visitNotFound
  | paymentNotFound
deriving DecidableEq, Repr

/-- The payment-status chain of `create_visit` (lines 516–523 of `app.py`),
also used verbatim by `update_visit`:
`total_bill <= 0` → n/a; `due_amount <= 0` → paid; `amount_paid > 0` →
partially paid; else pending. -/
def payStatusRule (total_bill due_amount amount_paid : ℚ) : PayStatus :=
  if total_bill ≤ 0 then .na
  else if due_amount ≤ 0 then .paid
  else if amount_paid > 0 then .partiallyPaid
  else .pending

/-- The conditional patient-field updates at the top of `create_visit`
(and repeated in `update_visit`): each field overwrites only when the
request value is truthy. -/
def applyPatientUpdates (db : DB) (pid : ℕ)
    (pname pphone : Option String) (page : Option ℤ) (pgender : Option String) : DB :=
  let db := if truthyS pname then db.updPatient pid (fun p => { p with name := pname.getD "" }) else db
  let db := if truthyS pphone then db.updPatient pid (fun p => { p with phone := pphone }) else db
  let db := if truthyI page then db.updPatient pid (fun p => { p with age := page }) else db
  if truthyS pgender then db.updPatient pid (fun p => { p with gender := pgender }) else db

/-- The `for item in visit['medicines']` loop shared by `create_visit`
(lines 480–508) and `update_visit` (lines 668–696): look the remedy up; if
the id is unknown the `if remedy:` test silently skips the item; otherwise
take the current price as snapshot, default the quantity to 1, raise
`InsufficientStock` when `stock_quantity < qty`, else insert the line item
and decrement stock, accumulating `med_cost`. -/
def processMedicines (vid : ℕ) : List MedItem → DB → ℚ → Except VErr (DB × ℚ)
  | [], db, c => .ok (db, c)
  | item :: rest, db, c =>
    match db.findRemedy item.remedy_id with
    | none => processMedicines vid rest db c
    | some r =>
      let qty := item.quantity.getD 1
      if r.stock_quantity < qty then
        .error (.insufficientStock item.remedy_id)
      else
        let lt := r.current_unit_price * (qty : ℚ)
        processMedicines vid rest
          ((db.addVisitMedicine ⟨vid, item.remedy_id, qty, r.current_unit_price, lt⟩).adjustStock item.remedy_id (-qty))
          (c + lt)

/-- Transaction body of `POST /api/visits` (`create_visit`, lines 427–535):
validate the patient, conditionally overwrite patient fields, insert the
visit row, run the medicines loop, then insert the payment row with the
four-branch status. -/
def create_visit_tx (db : DB) (req : VisitReq) (now : String) : Except VErr (DB × ℕ) :=
  match db.findPatient req.patient_id with
  | none => .error .patientNotFound
  | some _ =>
    let db := applyPatientUpdates db req.patient_id
      req.patient_name req.patient_phone req.patient_age req.patient_gender
    let vdate := orNow req.visit_date now
    let vid := db.nextVisitId
    let db := { db with
      visits := db.visits ++ [(vid, ⟨req.patient_id, vdate, req.chief_complaint.getD "",
        req.diagnosis.getD "", req.notes.getD "", none⟩)],
      nextVisitId := vid + 1 }
    match processMedicines vid (req.medicines.getD []) db 0 with
    | .error e => .error e
    | .ok (db, med_cost) =>
      let fee := req.consultation_fee.getD 0
      let paid := req.amount_paid.getD 0
      let total := fee + med_cost
      let due := total - paid
      let db := { db with payments := db.payments ++
        [⟨vid, none, fee, med_cost, paid, due, total, payStatusRule total due paid, none⟩] }
      .ok (db, vid)

/-- `create_visit` endpoint: on `HTTPException` the handler calls
`conn.rollback()`, so the caller observes the original state together with
the error. -/
def create_visit (db : DB) (req : VisitReq) (now : String) : DB × Except VErr ℕ :=
  match create_visit_tx db req now with
  | .ok (db', vid) => (db', .ok vid)
  | .error e => (db, .error e)

/-- `SELECT remedy_id, quantity FROM visit_medicines WHERE visit_id = ?`
(the full rows; the code reads the columns it needs). -/
def visitItems (db : DB) (vid : ℕ) : List VisitMedicine :=
  db.visit_medicines.filter (fun m => m.visit_id == vid)

/-- The stock-restore loop of `update_visit` (lines 638–642):
`stock_quantity = stock_quantity + quantity` for every old line item. -/
def restoreStock (db : DB) (olds : List VisitMedicine) : DB :=
  olds.foldl (fun db m => db.adjustStock m.remedy_id m.quantity) db

/-- `DELETE FROM visit_medicines WHERE visit_id = ?`. -/
def deleteVisitMedicines (db : DB) (vid : ℕ) : DB :=
  { db with visit_medicines := db.visit_medicines.filter (fun m => m.visit_id != vid) }

/-- `UPDATE visits SET ... WHERE id=?`. -/
def DB.updVisit (db : DB) (vid : ℕ) (f : Visit → Visit) : DB :=
  { db with visits := db.visits.map (fun p => if p.1 == vid then (p.1, f p.2) else p) }

/-- JSON body of `PUT /api/visits/{id}` (fields read by `update_visit`). -/
structure VisitUpdateReq where
  patient_id : Option ℕ
  patient_name : Option String
  patient_phone : Option String
  patient_age : Option ℤ
  patient_gender : Option String
  visit_date : Option String
  chief_complaint : Option String
  diagnosis : Option String
  notes : Option String
  medicines : Option (List MedItem)
  consultation_fee : Option ℚ
  amount_paid : Option ℚ
deriving DecidableEq, Repr

/-- Transaction body of `PUT /api/visits/{id}` (`update_visit`,
lines 575–766): find the visit; validate a changed patient id; conditionally
overwrite patient fields; restore stock for every old line item and delete
them; rewrite the visit row; re-run the medicines loop on the new list; then
update (or insert) the payment row with fee/paid taken from the request
(default 0) and the same four-branch status as creation. -/
def update_visit_tx (db : DB) (vid : ℕ) (req : VisitUpdateReq) (uid : ℕ) (now : String) :
    Except VErr DB :=
  match db.findVisit vid with
  | none => .error .visitNotFound
  | some vrec =>
    let old_pid := vrec.patient_id
    if truthyN req.patient_id && (req.patient_id.getD 0 != old_pid)
        && (db.findPatient (req.patient_id.getD 0)).isNone then
      .error .patientNotFound
    else
      let new_pid := if truthyN req.patient_id then req.patient_id.getD 0 else old_pid
      let db := applyPatientUpdates db new_pid
        req.patient_name req.patient_phone req.patient_age req.patient_gender
      let olds := visitItems db vid
      let db := restoreStock db olds
      let db := deleteVisitMedicines db vid
      let vdate := orNow req.visit_date now
      let db := db.updVisit vid (fun _ => ⟨new_pid, vdate, req.chief_complaint.getD "",
        req.diagnosis.getD "", req.notes.getD "", some uid⟩)
      match processMedicines vid (req.medicines.getD []) db 0 with
      | .error e => .error e
      | .ok (db, med_cost) =>
        let fee := req.consultation_fee.getD 0
        let paid := req.amount_paid.getD 0
        let total := fee + med_cost
        let due := total - paid
        let st := payStatusRule total due paid
        let db :=
          if (db.findPayment vid).isSome then
            { db with payments := db.payments.map (fun p =>
                if p.visit_id == vid then
                  { p with
                    patient_id := some new_pid, consultation_fee := fee,
                    medicine_bill := med_cost, amount_paid := paid,
                    due_amount := due, total_bill := total, status := st,
                    recorded_by := some uid }
                else p) }
          else
            { db with payments := db.payments ++
              [⟨vid, some new_pid, fee, med_cost, paid, due, total, st, some uid⟩] }
        .ok db

/-- `update_visit` endpoint with rollback-on-error. -/
def update_visit (db : DB) (vid : ℕ) (req : VisitUpdateReq) (uid : ℕ) (now : String) :
    DB × Except VErr Unit :=
  match update_visit_tx db vid req uid now with
  | .ok db' => (db', .ok ())
  | .error e => (db, .error e)

/-- JSON body of `PUT /api/visits/{id}/payment`.  A client may send a
`status` field; `update_payment` never reads it (the handler reads only
`consultation_fee`, `medicine_bill`, `amount_paid`). -/
structure PaymentUpdateReq where
  consultation_fee : Option ℚ
  medicine_bill : Option ℚ
  amount_paid : Option ℚ
  status : Option PayStatus
deriving DecidableEq, Repr

/-- The status chain of `update_payment` (lines 789–791), which differs in
branch order from `payStatusRule`:
`status = 'paid' if due <= 0 else 'partially paid'`;
`if total == 0: status = 'n/a'`;
`if paid == 0 and total > 0: status = 'pending'`. -/
def update_payment_status (total due paid : ℚ) : PayStatus :=
  let s := if due ≤ 0 then PayStatus.paid else PayStatus.partiallyPaid
  let s := if total = 0 then PayStatus.na else s
  if paid = 0 ∧ total > 0 then PayStatus.pending else s

/-- `update_payment` (lines 771–801): look up the existing payment (404 if
none); take effective fee/medicine bill/paid from the request, defaulting to
the stored values; recompute total, due and status; write all of them back. -/
def update_payment (db : DB) (vid : ℕ) (req : PaymentUpdateReq) : DB × Except VErr Unit :=
  match db.findPayment vid with
  | none => (db, .error .paymentNotFound)
  | some cur =>
    let consult := req.consultation_fee.getD cur.consultation_fee
    let med := req.medicine_bill.getD cur.medicine_bill
    let paid := req.amount_paid.getD cur.amount_paid
    let total := consult + med
    let due := total - paid
    let st := update_payment_status total due paid
    ({ db with payments := db.payments.map (fun p =>
        if p.visit_id == vid then
          { p with
            consultation_fee := consult, medicine_bill := med,
            total_bill := total, amount_paid := paid, due_amount := due, status := st }
        else p) }, .ok ())

/-- Total quantity a list of line items records for one remedy. -/
def sumQtyFor (l : List VisitMedicine) (rid : ℕ) : ℤ :=
  ((l.filter (fun m => m.remedy_id == rid)).map (·.quantity)).sum

/-- Sum of the line totals of a list of line items (`med_cost`). -/
def sumLineTotals (l : List VisitMedicine) : ℚ :=
  (l.map (·.line_total)).sum

/-- JSON body of `PUT /api/remedies/{id}`. -/
structure RemedyReq where
  name : String
  barcode : Option String
  potency : Option String
  description : Option String
  current_unit_price : ℚ
  stock_quantity : ℤ
deriving DecidableEq, Repr

/-- `update_remedy` (lines 356–379): `UPDATE remedies SET name=?, barcode=?,
potency=?, description=?, current_unit_price=?, stock_quantity=? WHERE id=?`
— every column, including `stock_quantity`, is set directly to the request
value. -/
def update_remedy (db : DB) (remedy_id : ℕ) (req : RemedyReq) : DB :=
  { db with remedies := db.remedies.map (fun p =>
      if p.1 == remedy_id then
        (p.1, ⟨req.name, req.barcode, req.potency, req.description,
          req.current_unit_price, req.stock_quantity⟩)
      else p) }

/-- Requested quantity total of a medicines list (`quantity` defaulting to 1). -/
def sumReqQty (items : List MedItem) : ℤ :=
  (items.map (·.quantity.getD 1)).sum

/-- Net requested quantity a medicines list carries for one remedy id
(`quantity` defaulting to 1). -/
def sumReqQtyFor (items : List MedItem) (rid : ℕ) : ℤ :=
  ((items.filter (fun i => i.remedy_id == rid)).map (·.quantity.getD 1)).sum

/-- Fixture: a patient row used in concrete evaluations. -/
def examplePatient : Patient := ⟨"Asha", some 30, some "017", some "F"⟩

/-- Fixture: remedy id 7, unit price 2, stock 5. -/
def exampleRemedy : Remedy := ⟨"Arnica", none, some "30C", none, 2, 5⟩

/-- Fixture: store with one remedy (id 7) and one patient (id 1). -/
def exDb : DB := ⟨[(7, exampleRemedy)], [(1, examplePatient)], [], [], [], 1⟩

/-- Fixture: visit request carrying only the patient id (all optional
fields absent). -/
def emptyVisitReq : VisitReq :=
  ⟨1, none, none, none, none, none, none, none, none, none, none, none⟩

/-- Fixture: a payment row for visit 1 (fee 100, fully paid). -/
def examplePayment : Payment := ⟨1, none, 100, 0, 100, 0, 100, .paid, none⟩

/-- Fixture: store holding only the payment row of visit 1. -/
def exPayDb : DB := ⟨[], [], [], [], [examplePayment], 2⟩

/-- Fixture: store with two remedies priced 0.10 and 0.20 (as exact
rationals) for the decimal-billing evaluation. -/
def exDecimalDb : DB :=
  ⟨[(1, ⟨"TinctureA", none, none, none, 1/10, 10⟩),
    (2, ⟨"TinctureB", none, none, none, 2/10, 10⟩)],
   [(1, examplePatient)], [], [], [], 1⟩

/-- Fixture: store with a recorded visit 1 (one line item of remedy 7,
quantity 2, snapshot price 2) and its payment row. -/
def exVisitDb : DB :=
  ⟨[(7, exampleRemedy)], [(1, examplePatient)],
   [(1, ⟨1, "2024-01-01", "", "", "", none⟩)],
   [⟨1, 7, 2, 2, 4⟩],
   [⟨1, none, 100, 4, 50, 54, 104, .partiallyPaid, none⟩], 2⟩

/-- Fixture: visit-update request carrying nothing but absent fields. -/
def emptyVisitUpdateReq : VisitUpdateReq :=
  ⟨none, none, none, none, none, none, none, none, none, none, none, none⟩

section Lemmas

/-- `find?` commutes with mapping a function that preserves the search
predicate. -/
theorem find?_map_pres {α : Type} (g : α → α) (p : α → Bool)
    (hg : ∀ a, p (g a) = p a) :
    ∀ l : List α, (l.map g).find? p = (l.find? p).map g := by
  intro l
  induction l with
  | nil => rfl
  | cons a l ih =>
    by_cases h : p a
    · simp [List.find?_cons_of_pos, h, hg]
    · have h' : ¬ p (g a) = true := by rw [hg]; exact h
      rw [List.map_cons, List.find?_cons_of_neg _ h', List.find?_cons_of_neg _ h, ih]

theorem adjustStock_patients (db : DB) (rid : ℕ) (d : ℤ) :
    (db.adjustStock rid d).patients = db.patients := rfl

theorem adjustStock_visits (db : DB) (rid : ℕ) (d : ℤ) :
    (db.adjustStock rid d).visits = db.visits := rfl

theorem adjustStock_visit_medicines (db : DB) (rid : ℕ) (d : ℤ) :
    (db.adjustStock rid d).visit_medicines = db.visit_medicines := rfl

theorem adjustStock_payments (db : DB) (rid : ℕ) (d : ℤ) :
    (db.adjustStock rid d).payments = db.payments := rfl

theorem adjustStock_nextVisitId (db : DB) (rid : ℕ) (d : ℤ) :
    (db.adjustStock rid d).nextVisitId = db.nextVisitId := rfl

/-- Effect of an `adjustStock` on the looked-up remedy row. -/
theorem findRemedy_adjustStock (db : DB) (rid : ℕ) (d : ℤ) (k : ℕ) :
    (db.adjustStock rid d).findRemedy k =
      if k = rid then
        (db.findRemedy k).map (fun r => { r with stock_quantity := r.stock_quantity + d })
      else db.findRemedy k := by
  have hrem : (db.adjustStock rid d).remedies = db.remedies.map
      (fun p => if p.1 == rid then (p.1, { p.2 with stock_quantity := p.2.stock_quantity + d }) else p) :=
    rfl
  have key := find?_map_pres
    (fun p : ℕ × Remedy => if p.1 == rid then (p.1, { p.2 with stock_quantity := p.2.stock_quantity + d }) else p)
    (fun p => p.1 == k)
    (by intro a; by_cases h : a.1 == rid <;> simp [h])
    db.remedies
  unfold DB.findRemedy
  rw [hrem, key]
  cases hf : db.remedies.find? (fun p => p.1 == k) with
  | none => simp
  | some q =>
    have hq : q.1 = k := by simpa using List.find?_some hf
    by_cases hk : k = rid
    · subst hk; simp [hq]
    · have hqr : ¬ q.1 == rid := by simp [hq, hk]
      simp [hq, hk, hqr]

theorem findRemedy_isSome_adjustStock (db : DB) (rid : ℕ) (d : ℤ) (k : ℕ) :
    ((db.adjustStock rid d).findRemedy k).isSome = (db.findRemedy k).isSome := by
  rw [findRemedy_adjustStock]
  by_cases hk : k = rid <;> simp [hk, Option.isSome_map]

theorem stockOf_adjustStock (db : DB) (rid : ℕ) (d : ℤ) (k : ℕ) :
    stockOf (db.adjustStock rid d) k =
      if k = rid ∧ (db.findRemedy k).isSome then stockOf db k + d else stockOf db k := by
  unfold stockOf
  rw [findRemedy_adjustStock]
  by_cases hk : k = rid
  · cases hf : db.findRemedy k <;> simp [hk, hf]
  · simp [hk]

theorem priceOf_adjustStock (db : DB) (rid : ℕ) (d : ℤ) (k : ℕ) :
    priceOf (db.adjustStock rid d) k = priceOf db k := by
  unfold priceOf
  rw [findRemedy_adjustStock]
  by_cases hk : k = rid
  · cases hf : db.findRemedy k <;> simp [hk, hf]
  · simp [hk]

theorem findRemedy_addVisitMedicine (db : DB) (m : VisitMedicine) (k : ℕ) :
    (db.addVisitMedicine m).findRemedy k = db.findRemedy k := rfl

theorem stockOf_addVisitMedicine (db : DB) (m : VisitMedicine) (k : ℕ) :
    stockOf (db.addVisitMedicine m) k = stockOf db k := rfl

theorem findRemedy_updPatient (db : DB) (pid : ℕ) (f : Patient → Patient) (k : ℕ) :
    (db.updPatient pid f).findRemedy k = db.findRemedy k := rfl

theorem updPatient_only_patients (db : DB) (pid : ℕ) (f : Patient → Patient) :
    (db.updPatient pid f).remedies = db.remedies ∧
    (db.updPatient pid f).visits = db.visits ∧
    (db.updPatient pid f).visit_medicines = db.visit_medicines ∧
    (db.updPatient pid f).payments = db.payments ∧
    (db.updPatient pid f).nextVisitId = db.nextVisitId :=
  ⟨rfl, rfl, rfl, rfl, rfl⟩

theorem applyPatientUpdates_remedies (db : DB) (pid : ℕ)
    (a b : Option String) (c : Option ℤ) (d : Option String) :
    (applyPatientUpdates db pid a b c d).remedies = db.remedies := by
  unfold applyPatientUpdates
  split <;> split <;> split <;> split <;> rfl

theorem applyPatientUpdates_visits (db : DB) (pid : ℕ)
    (a b : Option String) (c : Option ℤ) (d : Option String) :
    (applyPatientUpdates db pid a b c d).visits = db.visits := by
  unfold applyPatientUpdates
  split <;> split <;> split <;> split <;> rfl

theorem applyPatientUpdates_visit_medicines (db : DB) (pid : ℕ)
    (a b : Option String) (c : Option ℤ) (d : Option String) :
    (applyPatientUpdates db pid a b c d).visit_medicines = db.visit_medicines := by
  unfold applyPatientUpdates
  split <;> split <;> split <;> split <;> rfl

theorem applyPatientUpdates_payments (db : DB) (pid : ℕ)
    (a b : Option String) (c : Option ℤ) (d : Option String) :
    (applyPatientUpdates db pid a b c d).payments = db.payments := by
  unfold applyPatientUpdates
  split <;> split <;> split <;> split <;> rfl

theorem applyPatientUpdates_nextVisitId (db : DB) (pid : ℕ)
    (a b : Option String) (c : Option ℤ) (d : Option String) :
    (applyPatientUpdates db pid a b c d).nextVisitId = db.nextVisitId := by
  unfold applyPatientUpdates
  split <;> split <;> split <;> split <;> rfl

theorem findRemedy_applyPatientUpdates (db : DB) (pid : ℕ)
    (a b : Option String) (c : Option ℤ) (d : Option String) (k : ℕ) :
    (applyPatientUpdates db pid a b c d).findRemedy k = db.findRemedy k := by
  unfold DB.findRemedy
  rw [applyPatientUpdates_remedies]

theorem stockOf_applyPatientUpdates (db : DB) (pid : ℕ)
    (a b : Option String) (c : Option ℤ) (d : Option String) (k : ℕ) :
    stockOf (applyPatientUpdates db pid a b c d) k = stockOf db k := by
  unfold stockOf
  rw [findRemedy_applyPatientUpdates]

end Lemmas

section ProcessLemmas

theorem sumLineTotals_nil : sumLineTotals [] = 0 := rfl

theorem sumQtyFor_nil (k : ℕ) : sumQtyFor [] k = 0 := rfl

theorem sumLineTotals_cons (m : VisitMedicine) (l : List VisitMedicine) :
    sumLineTotals (m :: l) = m.line_total + sumLineTotals l := by
  simp [sumLineTotals]

theorem sumQtyFor_cons (m : VisitMedicine) (l : List VisitMedicine) (k : ℕ) :
    sumQtyFor (m :: l) k = (if m.remedy_id == k then m.quantity else 0) + sumQtyFor l k := by
  by_cases h : m.remedy_id == k <;> simp [sumQtyFor, List.filter_cons, h]

theorem stockOf_eq_of_findRemedy (db : DB) (rid : ℕ) (r : Remedy)
    (hr : db.findRemedy rid = some r) : stockOf db rid = r.stock_quantity := by
  simp [stockOf, hr]

/-- Full effect of a successful medicines loop: a list `new` of line items
(all for this visit, appended in submission order) is created; the
accumulated cost grows by their line totals; every remedy's stock drops by
exactly the quantity the new items record for it; no other table changes. -/
theorem processMedicines_ok (vid : ℕ) (items : List MedItem) :
    ∀ (db : DB) (c : ℚ) (db' : DB) (c' : ℚ),
      processMedicines vid items db c = .ok (db', c') →
      ∃ new : List VisitMedicine,
        db'.visit_medicines = db.visit_medicines ++ new ∧
        (∀ m ∈ new, m.visit_id = vid) ∧
        c' = c + sumLineTotals new ∧
        db'.patients = db.patients ∧
        db'.visits = db.visits ∧
        db'.payments = db.payments ∧
        db'.nextVisitId = db.nextVisitId ∧
        (∀ k, (db'.findRemedy k).isSome = (db.findRemedy k).isSome) ∧
        (∀ k, stockOf db' k = stockOf db k - sumQtyFor new k) := by
  induction items with
  | nil =>
    intro db c db' c' h
    rw [processMedicines] at h
    cases h
    exact ⟨[], by simp [sumLineTotals_nil, sumQtyFor_nil]⟩
  | cons item rest ih =>
    intro db c db' c' h
    rw [processMedicines] at h
    cases hr : db.findRemedy item.remedy_id with
    | none =>
      rw [hr] at h
      exact ih db c db' c' h
    | some r =>
      rw [hr] at h
      dsimp only at h
      by_cases hst : r.stock_quantity < item.quantity.getD 1
      · rw [if_pos hst] at h; cases h
      · rw [if_neg hst] at h
        obtain ⟨new, h1, h2, h3, h4, h5, h6, h7, h8, h9⟩ := ih _ _ _ _ h
        refine ⟨⟨vid, item.remedy_id, item.quantity.getD 1, r.current_unit_price,
          r.current_unit_price * (item.quantity.getD 1 : ℚ)⟩ :: new,
          ?_, ?_, ?_, ?_, ?_, ?_, ?_, ?_, ?_⟩
        · rw [h1]
          show (db.visit_medicines ++ [_]) ++ new = _
          rw [List.append_assoc]
          rfl
        · intro m hm
          rcases List.mem_cons.mp hm with h | h
          · rw [h]
          · exact h2 m h
        · rw [h3, sumLineTotals_cons]
          ring
        · rw [h4]; rfl
        · rw [h5]; rfl
        · rw [h6]; rfl
        · rw [h7]; rfl
        · intro k
          rw [h8 k, findRemedy_isSome_adjustStock, findRemedy_addVisitMedicine]
        · intro k
          rw [h9 k, sumQtyFor_cons]
          simp only [stockOf_adjustStock, findRemedy_addVisitMedicine, stockOf_addVisitMedicine]
          by_cases hk : k = item.remedy_id
          · simp only [hk, hr, Option.isSome_some, and_self, if_true, beq_self_eq_true]
            ring
          · have hbeq : (item.remedy_id == k) = false := by
              simp only [beq_eq_false_iff_ne, ne_eq]
              intro hc; exact hk hc.symm
            rw [if_neg (fun hc => hk hc.1), hbeq]
            simp only [Bool.false_eq_true, if_false]
            ring

end ProcessLemmas

section MoreProcessLemmas

/-- An item whose remedy id is unknown is silently skipped by the loop. -/
theorem processMedicines_skip (vid : ℕ) (item : MedItem) (rest : List MedItem)
    (db : DB) (c : ℚ) (h : db.findRemedy item.remedy_id = none) :
    processMedicines vid (item :: rest) db c = processMedicines vid rest db c := by
  rw [processMedicines, h]

/-- When every requested item targets remedy `rid` with a nonnegative
quantity, the remedy exists, its stock is nonnegative and the total demand
exceeds it, the loop aborts with `InsufficientStock rid`. -/
theorem processMedicines_insufficient (vid rid : ℕ) (items : List MedItem) :
    ∀ (db : DB) (c : ℚ),
      (∀ i ∈ items, i.remedy_id = rid ∧ 0 ≤ i.quantity.getD 1) →
      (db.findRemedy rid).isSome →
      0 ≤ stockOf db rid →
      stockOf db rid < sumReqQty items →
      processMedicines vid items db c = .error (.insufficientStock rid) := by
  induction items with
  | nil =>
    intro db c _ _ hnn hover
    exact absurd (lt_of_le_of_lt hnn hover) (by simp [sumReqQty])
  | cons item rest ih =>
    intro db c hall hsome hnn hover
    obtain ⟨hid, hq⟩ := hall item (List.mem_cons_self item rest)
    obtain ⟨r, hr⟩ := Option.isSome_iff_exists.mp hsome
    have hrid : db.findRemedy item.remedy_id = some r := by rw [hid]; exact hr
    have hstock : stockOf db rid = r.stock_quantity := stockOf_eq_of_findRemedy db rid r hr
    rw [processMedicines, hrid]
    dsimp only
    by_cases hst : r.stock_quantity < item.quantity.getD 1
    · rw [if_pos hst, hid]
    · rw [if_neg hst]
      set db2 := ((db.addVisitMedicine ⟨vid, item.remedy_id, item.quantity.getD 1,
        r.current_unit_price, r.current_unit_price * (item.quantity.getD 1 : ℚ)⟩).adjustStock
          item.remedy_id (-(item.quantity.getD 1))) with hdb2
      have hsome2 : (db2.findRemedy rid).isSome := by
        rw [hdb2, findRemedy_isSome_adjustStock, findRemedy_addVisitMedicine, hr]; rfl
      have hstock2 : stockOf db2 rid = stockOf db rid - item.quantity.getD 1 := by
        rw [hdb2, stockOf_adjustStock, findRemedy_addVisitMedicine, hid]
        rw [if_pos ⟨rfl, by rw [hr]; rfl⟩, stockOf_addVisitMedicine]
        ring
      apply ih
      · intro i hi; exact hall i (List.mem_cons_of_mem item hi)
      · exact hsome2
      · rw [hstock2, hstock]
        have : item.quantity.getD 1 ≤ r.stock_quantity := not_lt.mp hst
        omega
      · rw [hstock2]
        have hsum : sumReqQty (item :: rest) = item.quantity.getD 1 + sumReqQty rest := by
          simp [sumReqQty]
        omega

/-- A successful medicines loop keeps every remedy's stock nonnegative. -/
theorem processMedicines_nonneg (vid : ℕ) (items : List MedItem) :
    ∀ (db : DB) (c : ℚ) (db' : DB) (c' : ℚ),
      (∀ k, 0 ≤ stockOf db k) →
      processMedicines vid items db c = .ok (db', c') →
      ∀ k, 0 ≤ stockOf db' k := by
  induction items with
  | nil =>
    intro db c db' c' hnn h
    rw [processMedicines] at h
    cases h
    exact hnn
  | cons item rest ih =>
    intro db c db' c' hnn h
    rw [processMedicines] at h
    cases hr : db.findRemedy item.remedy_id with
    | none =>
      rw [hr] at h
      exact ih db c db' c' hnn h
    | some r =>
      rw [hr] at h
      dsimp only at h
      by_cases hst : r.stock_quantity < item.quantity.getD 1
      · rw [if_pos hst] at h; cases h
      · rw [if_neg hst] at h
        refine ih _ _ _ _ ?_ h
        intro k
        rw [stockOf_adjustStock, findRemedy_addVisitMedicine]
        by_cases hk : k = item.remedy_id ∧ (db.findRemedy k).isSome
        · rw [if_pos hk, stockOf_addVisitMedicine]
          have : stockOf db k = r.stock_quantity := by
            rw [hk.1]; exact stockOf_eq_of_findRemedy db item.remedy_id r hr
          rw [this]
          omega
        · rw [if_neg hk, stockOf_addVisitMedicine]
          exact hnn k

end MoreProcessLemmas

section ItemLemmas

theorem priceOf_eq_of_findRemedy (db : DB) (rid : ℕ) (r : Remedy)
    (hr : db.findRemedy rid = some r) : priceOf db rid = r.current_unit_price := by
  simp [priceOf, hr]

theorem priceOf_addVisitMedicine (db : DB) (m : VisitMedicine) (k : ℕ) :
    priceOf (db.addVisitMedicine m) k = priceOf db k := rfl

theorem priceOf_applyPatientUpdates (db : DB) (pid : ℕ)
    (a b : Option String) (c : Option ℤ) (d : Option String) (k : ℕ) :
    priceOf (applyPatientUpdates db pid a b c d) k = priceOf db k := by
  unfold priceOf
  rw [findRemedy_applyPatientUpdates]

/-- Itemization of a successful medicines loop: the produced rows are, in
order, exactly the request items whose remedy id exists (unknown ids are
skipped), carrying the request quantity (default 1); each row's price
snapshot is the remedy's current unit price at loop start with
`line_total = snapshot · quantity`; and each row passed the availability
check — its quantity is at most the stock available at its turn (loop-start
stock minus the quantities of the earlier rows for the same remedy). -/
theorem processMedicines_items (vid : ℕ) (items : List MedItem) :
    ∀ (db : DB) (c : ℚ) (db' : DB) (c' : ℚ),
      processMedicines vid items db c = .ok (db', c') →
      ∃ new : List VisitMedicine,
        db'.visit_medicines = db.visit_medicines ++ new ∧
        new.map (fun m => (m.remedy_id, m.quantity))
          = (items.filter (fun i => (db.findRemedy i.remedy_id).isSome)).map
              (fun i => (i.remedy_id, i.quantity.getD 1)) ∧
        (∀ m ∈ new, (db.findRemedy m.remedy_id).isSome
          ∧ m.unit_price_snapshot = priceOf db m.remedy_id
          ∧ m.line_total = m.unit_price_snapshot * (m.quantity : ℚ)) ∧
        (∀ pre m post, new = pre ++ m :: post →
          m.quantity ≤ stockOf db m.remedy_id - sumQtyFor pre m.remedy_id) := by
  induction items with
  | nil =>
    intro db c db' c' h
    rw [processMedicines] at h
    cases h
    refine ⟨[], by simp, by simp, by simp, ?_⟩
    intro pre m post hpm
    exact absurd hpm (by simp)
  | cons item rest ih =>
    intro db c db' c' h
    rw [processMedicines] at h
    cases hrem : db.findRemedy item.remedy_id with
    | none =>
      rw [hrem] at h
      obtain ⟨new, h1, h2, h3, h4⟩ := ih db c db' c' h
      refine ⟨new, h1, ?_, h3, h4⟩
      rw [h2, List.filter_cons]
      have hf : ((db.findRemedy item.remedy_id).isSome) = false := by rw [hrem]; rfl
      rw [hf]
      simp
    | some r =>
      rw [hrem] at h
      dsimp only at h
      by_cases hst : r.stock_quantity < item.quantity.getD 1
      · rw [if_pos hst] at h; cases h
      · rw [if_neg hst] at h
        obtain ⟨new, h1, h2, h3, h4⟩ := ih _ _ _ _ h
        refine ⟨⟨vid, item.remedy_id, item.quantity.getD 1, r.current_unit_price,
          r.current_unit_price * (item.quantity.getD 1 : ℚ)⟩ :: new, ?_, ?_, ?_, ?_⟩
        · rw [h1]
          show (db.visit_medicines ++ [_]) ++ new = _
          rw [List.append_assoc]
          rfl
        · rw [List.map_cons, h2, List.filter_cons]
          have ht : ((db.findRemedy item.remedy_id).isSome) = true := by rw [hrem]; rfl
          rw [ht]
          simp only [if_true, List.map_cons]
          congr 1
          congr 1
          refine List.filter_congr ?_
          intro i _
          rw [findRemedy_isSome_adjustStock, findRemedy_addVisitMedicine]
        · intro m hm
          rcases List.mem_cons.mp hm with hmeq | hmem
          · subst hmeq
            refine ⟨by rw [hrem]; rfl, ?_, rfl⟩
            show r.current_unit_price = _
            rw [priceOf_eq_of_findRemedy db item.remedy_id r hrem]
          · obtain ⟨ha, hb, hc⟩ := h3 m hmem
            rw [findRemedy_isSome_adjustStock, findRemedy_addVisitMedicine] at ha
            rw [priceOf_adjustStock, priceOf_addVisitMedicine] at hb
            exact ⟨ha, hb, hc⟩
        · intro pre m post hpm
          cases pre with
          | nil =>
            cases hpm
            show item.quantity.getD 1 ≤ stockOf db item.remedy_id - sumQtyFor [] item.remedy_id
            rw [sumQtyFor_nil, stockOf_eq_of_findRemedy db item.remedy_id r hrem]
            have := not_lt.mp hst
            omega
          | cons a pre2 =>
            rw [List.cons_append] at hpm
            injection hpm with ha2 hnew
            have hb := h4 pre2 m post hnew
            rw [stockOf_adjustStock, findRemedy_addVisitMedicine,
              stockOf_addVisitMedicine] at hb
            rw [← ha2, sumQtyFor_cons]
            by_cases hk : m.remedy_id = item.remedy_id
            · have hcond : m.remedy_id = item.remedy_id ∧
                  (db.findRemedy m.remedy_id).isSome := ⟨hk, by rw [hk, hrem]; rfl⟩
              rw [if_pos hcond] at hb
              have hbeq : ((⟨vid, item.remedy_id, item.quantity.getD 1, r.current_unit_price,
                  r.current_unit_price * (item.quantity.getD 1 : ℚ)⟩ :
                    VisitMedicine).remedy_id == m.remedy_id) = true := by
                show (item.remedy_id == m.remedy_id) = true
                simp [hk]
              rw [hbeq]
              simp only [if_true]
              show m.quantity ≤ stockOf db m.remedy_id
                - (item.quantity.getD 1 + sumQtyFor pre2 m.remedy_id)
              omega
            · rw [if_neg (fun hc2 => hk hc2.1)] at hb
              have hbeq : ((⟨vid, item.remedy_id, item.quantity.getD 1, r.current_unit_price,
                  r.current_unit_price * (item.quantity.getD 1 : ℚ)⟩ :
                    VisitMedicine).remedy_id == m.remedy_id) = false := by
                show (item.remedy_id == m.remedy_id) = false
                rw [beq_eq_false_iff_ne]
                intro hc2
                exact hk hc2.symm
              rw [hbeq]
              simp only [Bool.false_eq_true, if_false]
              show m.quantity ≤ stockOf db m.remedy_id - (0 + sumQtyFor pre2 m.remedy_id)
              omega

end ItemLemmas

section CreateVisitLemmas

/-- Everything a successful `create_visit` transaction does, relative to the
initial state: the patient existed; the visit id is the fresh id; patient
rows are those after the conditional updates; one visit row, the produced
line items, and one payment row (whose totals come from fee, the new items'
line totals, and amount paid, and whose status is the four-branch rule) are
appended; every remedy's stock drops by the quantity the new items record. -/
theorem create_visit_tx_ok (db : DB) (req : VisitReq) (now : String) (db' : DB) (vid : ℕ)
    (h : create_visit_tx db req now = .ok (db', vid)) :
    ∃ (pt : Patient) (new : List VisitMedicine),
      db.findPatient req.patient_id = some pt ∧
      vid = db.nextVisitId ∧
      db'.patients = (applyPatientUpdates db req.patient_id req.patient_name req.patient_phone
        req.patient_age req.patient_gender).patients ∧
      db'.visits = db.visits ++ [(vid, ⟨req.patient_id, orNow req.visit_date now,
        req.chief_complaint.getD "", req.diagnosis.getD "", req.notes.getD "", none⟩)] ∧
      db'.nextVisitId = db.nextVisitId + 1 ∧
      db'.visit_medicines = db.visit_medicines ++ new ∧
      (∀ m ∈ new, m.visit_id = vid) ∧
      (∀ k, (db'.findRemedy k).isSome = (db.findRemedy k).isSome) ∧
      (∀ k, stockOf db' k = stockOf db k - sumQtyFor new k) ∧
      db'.payments = db.payments ++ [⟨vid, none, req.consultation_fee.getD 0, sumLineTotals new,
        req.amount_paid.getD 0,
        req.consultation_fee.getD 0 + sumLineTotals new - req.amount_paid.getD 0,
        req.consultation_fee.getD 0 + sumLineTotals new,
        payStatusRule (req.consultation_fee.getD 0 + sumLineTotals new)
          (req.consultation_fee.getD 0 + sumLineTotals new - req.amount_paid.getD 0)
          (req.amount_paid.getD 0), none⟩] := by
  rw [create_visit_tx] at h
  cases hpt : db.findPatient req.patient_id with
  | none => rw [hpt] at h; cases h
  | some pt =>
    rw [hpt] at h
    dsimp only at h
    split at h
    · cases h
    · rename_i db3 med_cost heq
      cases h
      obtain ⟨new, h1, h2, h3, h4, h5, h6, h7, h8, h9⟩ :=
        processMedicines_ok _ _ _ _ _ _ heq
      refine ⟨pt, new, rfl, ?_, ?_, ?_, ?_, ?_, ?_, ?_, ?_, ?_⟩
      · exact applyPatientUpdates_nextVisitId ..
      · rw [h4]
      · rw [h5]
        rw [applyPatientUpdates_visits]
      · rw [h7]
        show (applyPatientUpdates db req.patient_id req.patient_name req.patient_phone
          req.patient_age req.patient_gender).nextVisitId + 1 = _
        rw [applyPatientUpdates_nextVisitId]
      · rw [h1]
        rw [applyPatientUpdates_visit_medicines]
      · intro m hm
        exact h2 m hm
      · intro k
        show (db3.findRemedy k).isSome = _
        rw [h8 k]
        exact congrArg Option.isSome (findRemedy_applyPatientUpdates ..)
      · intro k
        show stockOf db3 k = _
        rw [h9 k]
        show stockOf (applyPatientUpdates db req.patient_id req.patient_name req.patient_phone
          req.patient_age req.patient_gender) k - sumQtyFor new k = _
        rw [stockOf_applyPatientUpdates]
      · rw [h6]
        rw [applyPatientUpdates_payments, h3, zero_add]

end CreateVisitLemmas

section RestoreLemmas

theorem restoreStock_cons (db : DB) (m : VisitMedicine) (olds : List VisitMedicine) :
    restoreStock db (m :: olds) = restoreStock (db.adjustStock m.remedy_id m.quantity) olds := rfl

theorem restoreStock_patients (olds : List VisitMedicine) :
    ∀ db : DB, (restoreStock db olds).patients = db.patients := by
  induction olds with
  | nil => intro db; rfl
  | cons m olds ih =>
    intro db
    rw [restoreStock_cons, ih, adjustStock_patients]

theorem restoreStock_visits (olds : List VisitMedicine) :
    ∀ db : DB, (restoreStock db olds).visits = db.visits := by
  induction olds with
  | nil => intro db; rfl
  | cons m olds ih =>
    intro db
    rw [restoreStock_cons, ih, adjustStock_visits]

theorem restoreStock_visit_medicines (olds : List VisitMedicine) :
    ∀ db : DB, (restoreStock db olds).visit_medicines = db.visit_medicines := by
  induction olds with
  | nil => intro db; rfl
  | cons m olds ih =>
    intro db
    rw [restoreStock_cons, ih, adjustStock_visit_medicines]

theorem restoreStock_payments (olds : List VisitMedicine) :
    ∀ db : DB, (restoreStock db olds).payments = db.payments := by
  induction olds with
  | nil => intro db; rfl
  | cons m olds ih =>
    intro db
    rw [restoreStock_cons, ih, adjustStock_payments]

theorem restoreStock_nextVisitId (olds : List VisitMedicine) :
    ∀ db : DB, (restoreStock db olds).nextVisitId = db.nextVisitId := by
  induction olds with
  | nil => intro db; rfl
  | cons m olds ih =>
    intro db
    rw [restoreStock_cons, ih, adjustStock_nextVisitId]

theorem findRemedy_isSome_restoreStock (olds : List VisitMedicine) :
    ∀ (db : DB) (k : ℕ),
      ((restoreStock db olds).findRemedy k).isSome = (db.findRemedy k).isSome := by
  induction olds with
  | nil => intro db k; rfl
  | cons m olds ih =>
    intro db k
    rw [restoreStock_cons, ih, findRemedy_isSome_adjustStock]

/-- The stock-restore loop adds back exactly the recorded quantity of every
old line item, remedy by remedy. -/
theorem stockOf_restoreStock (olds : List VisitMedicine) :
    ∀ (db : DB) (k : ℕ), (db.findRemedy k).isSome →
      stockOf (restoreStock db olds) k = stockOf db k + sumQtyFor olds k := by
  induction olds with
  | nil =>
    intro db k _
    rw [sumQtyFor_nil]
    show stockOf db k = _
    omega
  | cons m olds ih =>
    intro db k hk
    rw [restoreStock_cons, sumQtyFor_cons]
    have hk2 : ((db.adjustStock m.remedy_id m.quantity).findRemedy k).isSome := by
      rw [findRemedy_isSome_adjustStock]; exact hk
    rw [ih _ _ hk2, stockOf_adjustStock]
    by_cases hkm : k = m.remedy_id
    · rw [if_pos ⟨hkm, hk⟩]
      have : (m.remedy_id == k) = true := by simp [hkm]
      rw [this, if_pos rfl]
      ring
    · rw [if_neg (fun hc => hkm hc.1)]
      have : (m.remedy_id == k) = false := by
        simp only [beq_eq_false_iff_ne, ne_eq]
        intro hc; exact hkm hc.symm
      rw [this]
      simp only [Bool.false_eq_true, if_false]
      ring

theorem priceOf_restoreStock (olds : List VisitMedicine) :
    ∀ (db : DB) (k : ℕ), priceOf (restoreStock db olds) k = priceOf db k := by
  induction olds with
  | nil => intro db k; rfl
  | cons m olds ih =>
    intro db k
    rw [restoreStock_cons, ih, priceOf_adjustStock]

theorem deleteVisitMedicines_remedies (db : DB) (vid : ℕ) :
    (deleteVisitMedicines db vid).remedies = db.remedies := rfl

theorem deleteVisitMedicines_payments (db : DB) (vid : ℕ) :
    (deleteVisitMedicines db vid).payments = db.payments := rfl

theorem updVisit_remedies (db : DB) (vid : ℕ) (f : Visit → Visit) :
    (db.updVisit vid f).remedies = db.remedies := rfl

theorem updVisit_payments (db : DB) (vid : ℕ) (f : Visit → Visit) :
    (db.updVisit vid f).payments = db.payments := rfl

theorem find?_append_none {α : Type} (p : α → Bool) (l l' : List α)
    (h : l.find? p = none) : (l ++ l').find? p = l'.find? p := by
  induction l with
  | nil => rfl
  | cons a l ih =>
    by_cases ha : p a
    · rw [List.find?_cons_of_pos _ ha] at h; cases h
    · rw [List.find?_cons_of_neg _ ha] at h
      rw [List.cons_append, List.find?_cons_of_neg _ ha]
      exact ih h

end RestoreLemmas

section UpdateVisitLemmas

theorem visitItems_applyPatientUpdates (db : DB) (pid : ℕ)
    (a b : Option String) (c : Option ℤ) (d : Option String) (vid : ℕ) :
    visitItems (applyPatientUpdates db pid a b c d) vid = visitItems db vid := by
  unfold visitItems
  rw [applyPatientUpdates_visit_medicines]

/-- Combined restore–delete–rewrite stage of `update_visit`: line items of
the visit are gone, nothing else in `visit_medicines` moves. -/
theorem stage_visit_medicines (db : DB) (vid : ℕ) (olds : List VisitMedicine) (f : Visit → Visit) :
    ((deleteVisitMedicines (restoreStock db olds) vid).updVisit vid f).visit_medicines
      = db.visit_medicines.filter (fun m => m.visit_id != vid) := by
  show (deleteVisitMedicines (restoreStock db olds) vid).visit_medicines = _
  unfold deleteVisitMedicines
  dsimp only
  rw [restoreStock_visit_medicines]

theorem stage_payments (db : DB) (vid : ℕ) (olds : List VisitMedicine) (f : Visit → Visit) :
    ((deleteVisitMedicines (restoreStock db olds) vid).updVisit vid f).payments = db.payments := by
  show (restoreStock db olds).payments = _
  rw [restoreStock_payments]

theorem stage_findRemedy (db : DB) (vid : ℕ) (olds : List VisitMedicine) (f : Visit → Visit)
    (k : ℕ) :
    ((deleteVisitMedicines (restoreStock db olds) vid).updVisit vid f).findRemedy k
      = (restoreStock db olds).findRemedy k := rfl

theorem stage_priceOf (db : DB) (vid : ℕ) (olds : List VisitMedicine) (f : Visit → Visit)
    (k : ℕ) :
    priceOf ((deleteVisitMedicines (restoreStock db olds) vid).updVisit vid f) k
      = priceOf db k := by
  show priceOf (restoreStock db olds) k = _
  exact priceOf_restoreStock olds db k

theorem stage_isSome (db : DB) (vid : ℕ) (olds : List VisitMedicine) (f : Visit → Visit) (k : ℕ) :
    (((deleteVisitMedicines (restoreStock db olds) vid).updVisit vid f).findRemedy k).isSome
      = (db.findRemedy k).isSome := by
  rw [stage_findRemedy, findRemedy_isSome_restoreStock]

theorem stage_stockOf (db : DB) (vid : ℕ) (olds : List VisitMedicine) (f : Visit → Visit) (k : ℕ)
    (hk : (db.findRemedy k).isSome) :
    stockOf ((deleteVisitMedicines (restoreStock db olds) vid).updVisit vid f) k
      = stockOf db k + sumQtyFor olds k := by
  show stockOf (restoreStock db olds) k = _
  exact stockOf_restoreStock olds db k hk

theorem findPayment_map_update (db : DB) (vid : ℕ) (g : Payment → Payment)
    (hg : ∀ p, (g p).visit_id = p.visit_id) :
    (DB.mk db.remedies db.patients db.visits db.visit_medicines
        (db.payments.map (fun p => if p.visit_id == vid then g p else p))
        db.nextVisitId).findPayment vid
      = (db.findPayment vid).map (fun p => if p.visit_id == vid then g p else p) := by
  unfold DB.findPayment
  exact find?_map_pres _ _
    (fun a => by by_cases hh : a.visit_id == vid <;> simp [hh, hg]) _

end UpdateVisitLemmas

/-- Full effect of a successful `update_visit` transaction: the visit's old
line items are deleted and replaced by freshly processed ones; every
remedy's stock is first restored by the old recorded quantities and then
decremented by the new ones; the payment row is recomputed from scratch
from `consultation_fee`/`amount_paid` of the request (default 0) and the
new items' line totals, with the four-branch status rule. -/
theorem update_visit_tx_ok (db : DB) (vid : ℕ) (req : VisitUpdateReq) (uid : ℕ)
    (now : String) (db' : DB) (h : update_visit_tx db vid req uid now = .ok db') :
    ∃ new : List VisitMedicine,
      (∀ m ∈ new, m.visit_id = vid) ∧
      db'.visit_medicines = db.visit_medicines.filter (fun m => m.visit_id != vid) ++ new ∧
      (∀ k, (db.findRemedy k).isSome →
        stockOf db' k = stockOf db k + sumQtyFor (visitItems db vid) k - sumQtyFor new k) ∧
      new.map (fun m => (m.remedy_id, m.quantity))
        = ((req.medicines.getD []).filter (fun i => (db.findRemedy i.remedy_id).isSome)).map
            (fun i => (i.remedy_id, i.quantity.getD 1)) ∧
      (∀ m ∈ new, (db.findRemedy m.remedy_id).isSome
        ∧ m.unit_price_snapshot = priceOf db m.remedy_id
        ∧ m.line_total = m.unit_price_snapshot * (m.quantity : ℚ)) ∧
      (∀ pre m post, new = pre ++ m :: post →
        m.quantity ≤ stockOf db m.remedy_id + sumQtyFor (visitItems db vid) m.remedy_id
          - sumQtyFor pre m.remedy_id) ∧
      ∃ pay, db'.findPayment vid = some pay ∧
        pay.consultation_fee = req.consultation_fee.getD 0 ∧
        pay.medicine_bill = sumLineTotals new ∧
        pay.amount_paid = req.amount_paid.getD 0 ∧
        pay.total_bill = req.consultation_fee.getD 0 + sumLineTotals new ∧
        pay.due_amount = req.consultation_fee.getD 0 + sumLineTotals new - req.amount_paid.getD 0 ∧
        pay.status = payStatusRule (req.consultation_fee.getD 0 + sumLineTotals new)
          (req.consultation_fee.getD 0 + sumLineTotals new - req.amount_paid.getD 0)
          (req.amount_paid.getD 0) := by
  rw [update_visit_tx] at h
  cases hv : db.findVisit vid with
  | none => rw [hv] at h; cases h
  | some vrec =>
    rw [hv] at h
    dsimp only at h
    split at h
    · cases h
    · rename_i hpid
      split at h
      · cases h
      · rename_i db5 med_cost heq
        cases h
        obtain ⟨new, h1, h2, h3, h4, h5, h6, h7, h8, h9⟩ :=
          processMedicines_ok _ _ _ _ _ _ heq
        obtain ⟨new2, g1, g2, g3, g4⟩ := processMedicines_items _ _ _ _ _ _ heq
        have hid : new2 = new := List.append_cancel_left (g1.symm.trans h1)
        rw [hid] at g2 g3 g4
        have hvm : db5.visit_medicines
            = db.visit_medicines.filter (fun m => m.visit_id != vid) ++ new := by
          rw [h1, stage_visit_medicines, applyPatientUpdates_visit_medicines]
        have hstock : ∀ k, (db.findRemedy k).isSome →
            stockOf db5 k
              = stockOf db k + sumQtyFor (visitItems db vid) k - sumQtyFor new k := by
          intro k hk
          rw [h9 k]
          rw [stage_stockOf]
          · rw [stockOf_applyPatientUpdates, visitItems_applyPatientUpdates]
          · rw [findRemedy_applyPatientUpdates]
            exact hk
        have hlink : new.map (fun m => (m.remedy_id, m.quantity))
            = ((req.medicines.getD []).filter
                (fun i => (db.findRemedy i.remedy_id).isSome)).map
                (fun i => (i.remedy_id, i.quantity.getD 1)) := by
          rw [g2]
          congr 1
          refine List.filter_congr ?_
          intro i _
          rw [stage_isSome, findRemedy_applyPatientUpdates]
        have hsnap : ∀ m ∈ new, (db.findRemedy m.remedy_id).isSome
            ∧ m.unit_price_snapshot = priceOf db m.remedy_id
            ∧ m.line_total = m.unit_price_snapshot * (m.quantity : ℚ) := by
          intro m hm
          obtain ⟨ga, gb, gc⟩ := g3 m hm
          rw [stage_isSome, findRemedy_applyPatientUpdates] at ga
          rw [stage_priceOf, priceOf_applyPatientUpdates] at gb
          exact ⟨ga, gb, gc⟩
        have havail : ∀ pre m post, new = pre ++ m :: post →
            m.quantity ≤ stockOf db m.remedy_id
              + sumQtyFor (visitItems db vid) m.remedy_id - sumQtyFor pre m.remedy_id := by
          intro pre m post hdec
          have hmem : m ∈ new := by
            rw [hdec]
            exact List.mem_append.mpr (Or.inr (List.mem_cons_self _ _))
          have hsome : (db.findRemedy m.remedy_id).isSome := (hsnap m hmem).1
          have hb := g4 pre m post hdec
          rw [stage_stockOf] at hb
          · rw [stockOf_applyPatientUpdates, visitItems_applyPatientUpdates] at hb
            omega
          · rw [findRemedy_applyPatientUpdates]
            exact hsome
        cases hfp : (db5.findPayment vid).isSome with
        | true =>
          obtain ⟨cur, hcur⟩ := Option.isSome_iff_exists.mp hfp
          have hcur2 : db5.payments.find? (fun p => p.visit_id == vid) = some cur := hcur
          have hpred : (cur.visit_id == vid) = true := by
            have hx := List.find?_some hcur2
            exact hx
          rw [if_pos rfl]
          refine ⟨new, fun m hm => h2 m hm, hvm, hstock, hlink, hsnap, havail, ?_⟩
          unfold DB.findPayment
          dsimp only
          rw [find?_map_pres]
          · rw [hcur2, Option.map_some']
            rw [if_pos hpred]
            refine ⟨_, rfl, ?_, ?_, ?_, ?_, ?_, ?_⟩
            · rfl
            · show med_cost = _
              rw [h3, zero_add]
            · rfl
            · show req.consultation_fee.getD 0 + med_cost = _
              rw [h3, zero_add]
            · show req.consultation_fee.getD 0 + med_cost - req.amount_paid.getD 0 = _
              rw [h3, zero_add]
            · show payStatusRule (req.consultation_fee.getD 0 + med_cost)
                (req.consultation_fee.getD 0 + med_cost - req.amount_paid.getD 0)
                (req.amount_paid.getD 0) = _
              rw [h3, zero_add]
          · intro a
            by_cases ha : (a.visit_id == vid) = true <;> simp [ha]
        | false =>
          have hnone : db5.findPayment vid = none := by
            cases hcc : db5.findPayment vid with
            | none => rfl
            | some q => rw [hcc] at hfp; cases hfp
          rw [if_neg Bool.false_ne_true]
          refine ⟨new, fun m hm => h2 m hm, hvm, hstock, hlink, hsnap, havail, ?_⟩
          unfold DB.findPayment at hnone ⊢
          dsimp only
          rw [find?_append_none _ _ _ hnone, List.find?_cons_of_pos _ (by simp)]
          refine ⟨_, rfl, ?_, ?_, ?_, ?_, ?_, ?_⟩
          · rfl
          · show med_cost = _
            rw [h3, zero_add]
          · rfl
          · show req.consultation_fee.getD 0 + med_cost = _
            rw [h3, zero_add]
          · show req.consultation_fee.getD 0 + med_cost - req.amount_paid.getD 0 = _
            rw [h3, zero_add]
          · show payStatusRule (req.consultation_fee.getD 0 + med_cost)
              (req.consultation_fee.getD 0 + med_cost - req.amount_paid.getD 0)
              (req.amount_paid.getD 0) = _
            rw [h3, zero_add]

section PatientViewLemmas

theorem findPatient_updPatient (db : DB) (pid : ℕ) (f : Patient → Patient) (k : ℕ) :
    (db.updPatient pid f).findPatient k =
      if k = pid then (db.findPatient k).map f else db.findPatient k := by
  have key := find?_map_pres
    (fun p : ℕ × Patient => if p.1 == pid then (p.1, f p.2) else p)
    (fun p => p.1 == k)
    (by intro a; by_cases h : a.1 == pid <;> simp [h])
    db.patients
  unfold DB.findPatient DB.updPatient
  dsimp only
  rw [key]
  cases hf : db.patients.find? (fun p => p.1 == k) with
  | none => simp
  | some q =>
    have hq : q.1 = k := by simpa using List.find?_some hf
    by_cases hk : k = pid
    · subst hk; simp [hq]
    · have hqr : ¬ q.1 == pid := by simp [hq, hk]
      simp [hq, hk, hqr]

/-- What the conditional patient updates leave in the referenced patient's
row: each of the four fields is overwritten exactly when the request value
is truthy, and kept otherwise. -/
theorem findPatient_applyPatientUpdates (db : DB) (pid : ℕ)
    (pname pphone : Option String) (page : Option ℤ) (pgender : Option String) :
    (applyPatientUpdates db pid pname pphone page pgender).findPatient pid =
      (db.findPatient pid).map (fun pt =>
        ⟨if truthyS pname then pname.getD "" else pt.name,
         if truthyI page then page else pt.age,
         if truthyS pphone then pphone else pt.phone,
         if truthyS pgender then pgender else pt.gender⟩) := by
  unfold applyPatientUpdates
  by_cases h1 : truthyS pname <;> by_cases h2 : truthyS pphone <;>
    by_cases h3 : truthyI page <;> by_cases h4 : truthyS pgender <;>
    simp only [h1, h2, h3, h4, if_true, if_false, Bool.false_eq_true,
      findPatient_updPatient, eq_self_iff_true, Option.map_map] <;>
    (cases db.findPatient pid with
     | none => rfl
     | some pt => rfl)

end PatientViewLemmas

section UpdatePaymentLemmas

/-- Successful `update_payment`: the stored row's fields are recomputed from
the effective inputs (request value, defaulting to the stored one) and the
status comes from `update_payment_status`; the `status` field of the request
plays no role. -/
theorem update_payment_spec (db : DB) (vid : ℕ) (req : PaymentUpdateReq) (cur : Payment)
    (hcur : db.findPayment vid = some cur) :
    (update_payment db vid req).2 = .ok () ∧
    ∃ pay, (update_payment db vid req).1.findPayment vid = some pay ∧
      pay.consultation_fee = req.consultation_fee.getD cur.consultation_fee ∧
      pay.medicine_bill = req.medicine_bill.getD cur.medicine_bill ∧
      pay.amount_paid = req.amount_paid.getD cur.amount_paid ∧
      pay.total_bill = pay.consultation_fee + pay.medicine_bill ∧
      pay.due_amount = pay.total_bill - pay.amount_paid ∧
      pay.status = update_payment_status (pay.consultation_fee + pay.medicine_bill)
        (pay.consultation_fee + pay.medicine_bill - pay.amount_paid) pay.amount_paid := by
  have hcur2 : db.payments.find? (fun p => p.visit_id == vid) = some cur := hcur
  have hpred : (cur.visit_id == vid) = true := by
    have hx := List.find?_some hcur2
    exact hx
  unfold update_payment
  rw [hcur]
  dsimp only
  refine ⟨rfl, ?_⟩
  unfold DB.findPayment
  dsimp only
  rw [find?_map_pres]
  · rw [hcur2, Option.map_some']
    rw [if_pos hpred]
    exact ⟨_, rfl, rfl, rfl, rfl, rfl, rfl, rfl⟩
  · intro a
    by_cases ha : (a.visit_id == vid) = true <;> simp [ha]

/-- The client-supplied `status` field has no influence on `update_payment`. -/
theorem update_payment_ignores_status (db : DB) (vid : ℕ) (req : PaymentUpdateReq)
    (s : Option PayStatus) :
    update_payment db vid { req with status := s } = update_payment db vid req := rfl

/-- On nonnegative effective totals and payments, the `update_payment`
status chain agrees with the creation-time four-branch rule. -/
theorem update_payment_status_eq_rule (total paid : ℚ)
    (ht : 0 ≤ total) (hp : 0 ≤ paid) :
    update_payment_status total (total - paid) paid
      = payStatusRule total (total - paid) paid := by
  unfold update_payment_status payStatusRule
  by_cases h0 : total = 0
  · simp [h0]
  · have hpos : 0 < total := lt_of_le_of_ne ht (Ne.symm h0)
    by_cases hd : total - paid ≤ 0
    · have hpaid : ¬ (paid = 0 ∧ total > 0) := by
        rintro ⟨hq, _⟩
        rw [hq, sub_zero] at hd
        exact absurd hpos (not_lt.mpr hd)
      simp [h0, hd, hpaid, not_le.mpr hpos]
    · by_cases hq : paid = 0
      · simp [h0, hd, hq, hpos, not_le.mpr hpos]
      · have hppos : 0 < paid := lt_of_le_of_ne hp (Ne.symm hq)
        simp [h0, hd, hq, not_le.mpr hpos, not_lt.mpr (le_of_lt hppos), hppos]

end UpdatePaymentLemmas

section Bridges

theorem findPatient_eq_of_patients (db1 db2 : DB) (h : db1.patients = db2.patients) (k : ℕ) :
    db1.findPatient k = db2.findPatient k := by
  unfold DB.findPatient
  rw [h]

/-- A successful `create_visit` endpoint call comes from a successful
transaction body whose final state is the endpoint's returned state. -/
theorem create_visit_tx_of_ok (db : DB) (req : VisitReq) (now : String) (vid : ℕ)
    (h : (create_visit db req now).2 = .ok vid) :
    create_visit_tx db req now = .ok ((create_visit db req now).1, vid) := by
  unfold create_visit at h ⊢
  cases htx : create_visit_tx db req now with
  | ok p =>
    cases p with
    | mk a b =>
      rw [htx] at h
      dsimp only at h ⊢
      cases h
      rfl
  | error e =>
    rw [htx] at h
    dsimp only at h
    cases h

/-- A successful `update_visit` endpoint call comes from a successful
transaction body whose final state is the endpoint's returned state. -/
theorem update_visit_tx_of_ok (db : DB) (vid : ℕ) (req : VisitUpdateReq) (uid : ℕ)
    (now : String) (h : (update_visit db vid req uid now).2 = .ok ()) :
    update_visit_tx db vid req uid now = .ok ((update_visit db vid req uid now).1) := by
  unfold update_visit at h ⊢
  cases htx : update_visit_tx db vid req uid now with
  | ok db2 => rfl
  | error e =>
    rw [htx] at h
    dsimp only at h
    cases h

/-- Evaluation of the loop on a single in-stock item. -/
theorem processMedicines_singleton (vid rid : ℕ) (q : ℤ) (db : DB) (c : ℚ) (r : Remedy)
    (hr : db.findRemedy rid = some r) (hq : ¬ r.stock_quantity < q) :
    processMedicines vid [⟨rid, some q⟩] db c =
      .ok ((db.addVisitMedicine ⟨vid, rid, q, r.current_unit_price,
        r.current_unit_price * (q : ℚ)⟩).adjustStock rid (-q),
        c + r.current_unit_price * (q : ℚ)) := by
  rw [processMedicines]
  dsimp only
  rw [hr]
  dsimp only
  rw [if_neg (show ¬ r.stock_quantity < (some q).getD 1 from hq)]
  rw [processMedicines]
  rfl

end Bridges

/-- C1 (counterexample): a visit-creation request whose only line item
references the unknown remedy id 99 does NOT fail: it returns ok, creates
the Visit row and a Payment row — contradicting "fails with RemedyNotFound
and nothing is persisted". -/
theorem C1_counterexample :
    (create_visit exDb { emptyVisitReq with medicines := some [⟨99, some 1⟩] } "d").2
        = .ok 1 ∧
    (create_visit exDb { emptyVisitReq with medicines := some [⟨99, some 1⟩] } "d").1.visits
        = [(1, ⟨1, "d", "", "", "", none⟩)] ∧
    (create_visit exDb { emptyVisitReq with medicines := some [⟨99, some 1⟩] } "d").1.payments
        = [⟨1, none, 0, 0, 0, 0, 0, .na, none⟩] := by
  with_unfolding_all exact ⟨rfl, rfl, rfl⟩

/-- C1 (amended): a line item whose remedy id is unknown is silently
skipped — the call behaves exactly as if that item were absent: no line
item row, no stock change, and the visit is still created from the
remaining items. -/
theorem C1_unknown_remedy_skipped (db : DB) (req : VisitReq) (now : String)
    (item : MedItem) (rest : List MedItem)
    (h : db.findRemedy item.remedy_id = none) :
    create_visit db { req with medicines := some (item :: rest) } now
      = create_visit db { req with medicines := some rest } now := by
  unfold create_visit
  have hskip : create_visit_tx db { req with medicines := some (item :: rest) } now
      = create_visit_tx db { req with medicines := some rest } now := by
    unfold create_visit_tx
    dsimp only
    cases hpt : db.findPatient req.patient_id with
    | none => rfl
    | some pt =>
      dsimp only
      simp only [Option.getD_some]
      rw [processMedicines_skip]
      show (applyPatientUpdates db req.patient_id req.patient_name req.patient_phone
        req.patient_age req.patient_gender).findRemedy item.remedy_id = none
      rw [findRemedy_applyPatientUpdates]
      exact h
  rw [hskip]

/-- C1 witness for the amended statement, at remedy id 99 over `exDb`. -/
theorem C1_unknown_remedy_skipped_witness :
    create_visit exDb { emptyVisitReq with medicines := some [⟨99, some 1⟩] } "d"
      = create_visit exDb { emptyVisitReq with medicines := some ([] : List MedItem) } "d" :=
  C1_unknown_remedy_skipped exDb emptyVisitReq "d" ⟨99, some 1⟩ []
    (by with_unfolding_all rfl)

/-- C2: every successful visit creation appends exactly one payment row
whose totals satisfy `total = fee + medicine_bill`, `due = total − paid`,
and whose status is the ordered four-branch rule (first match wins);
in particular fee 500 / paid 700 stores PAID and fee 0 / paid 0 stores
NOT_APPLICABLE. -/
theorem C2_payment_status_rule :
    (∀ (db : DB) (req : VisitReq) (now : String) (vid : ℕ),
      (create_visit db req now).2 = .ok vid →
      ∃ pay, (create_visit db req now).1.payments = db.payments ++ [pay] ∧
        pay.total_bill = pay.consultation_fee + pay.medicine_bill ∧
        pay.due_amount = pay.total_bill - pay.amount_paid ∧
        pay.status =
          (if pay.total_bill ≤ 0 then PayStatus.na
           else if pay.due_amount ≤ 0 then PayStatus.paid
           else if pay.amount_paid > 0 then PayStatus.partiallyPaid
           else PayStatus.pending)) ∧
    ((create_visit exDb { emptyVisitReq with consultation_fee := some 500, amount_paid := some 700 } "d").1.payments.map (·.status) = [PayStatus.paid]) ∧
    ((create_visit exDb { emptyVisitReq with consultation_fee := some 0, amount_paid := some 0 } "d").1.payments.map (·.status) = [PayStatus.na]) := by
  refine ⟨?_, ?_, ?_⟩
  · intro db req now vid h
    have htx := create_visit_tx_of_ok db req now vid h
    obtain ⟨pt, new, c1, c2, c3, c4, c5, c6, c7, c8, c9, c10⟩ :=
      create_visit_tx_ok _ _ _ _ _ htx
    exact ⟨_, c10, rfl, rfl, rfl⟩
  · with_unfolding_all rfl
  · with_unfolding_all rfl

/-- C2 witness: the general clause applied at fee 500, paid 200. -/
theorem C2_payment_status_rule_witness :
    ∃ pay, (create_visit exDb { emptyVisitReq with consultation_fee := some 500, amount_paid := some 200 } "d").1.payments = exDb.payments ++ [pay] ∧
      pay.total_bill = pay.consultation_fee + pay.medicine_bill ∧
      pay.due_amount = pay.total_bill - pay.amount_paid ∧
      pay.status =
        (if pay.total_bill ≤ 0 then PayStatus.na
         else if pay.due_amount ≤ 0 then PayStatus.paid
         else if pay.amount_paid > 0 then PayStatus.partiallyPaid
         else PayStatus.pending) :=
  C2_payment_status_rule.1 exDb
    { emptyVisitReq with consultation_fee := some 500, amount_paid := some 200 } "d" 1
    (by with_unfolding_all rfl)

/-- C6: the exact-rational (decimal) billing model stores medicine bill
0.1·1 + 0.2·1 = 3/10, total 3/10 and due 3/10 exactly — the values the
claim requires at this input.  The code itself runs this computation in
Python binary64 floats, which store 0.30000000000000004 instead. -/
theorem C6_exact_model_billing :
    (create_visit exDecimalDb { emptyVisitReq with
        medicines := some [⟨1, some 1⟩, ⟨2, some 1⟩] } "d").1.payments
      = [⟨1, none, 0, 3/10, 0, 3/10, 3/10, .pending, none⟩] := by
  with_unfolding_all rfl

/-- C8: `update_remedy` touches only the `remedies` table: line items
(with their price snapshots and line totals) and payment rows read back
unchanged after any remedy update. -/
theorem C8_update_remedy_frame (db : DB) (rid : ℕ) (r : RemedyReq) :
    (update_remedy db rid r).visit_medicines = db.visit_medicines ∧
    (update_remedy db rid r).payments = db.payments ∧
    (update_remedy db rid r).visits = db.visits ∧
    (∀ vid, visitItems (update_remedy db rid r) vid = visitItems db vid) ∧
    (∀ vid, (update_remedy db rid r).findPayment vid = db.findPayment vid) :=
  ⟨rfl, rfl, rfl, fun _ => rfl, fun _ => rfl⟩

/-- C3 (counterexample): with stored payment for visit 1 and an update
setting consultation_fee = −1, medicine_bill = 0, amount_paid = 0,
`update_payment` stores status PAID, while the creation-time four-branch
rule at the same effective inputs (total −1, due −1, paid 0) yields
NOT_APPLICABLE — the two code paths are not the same rule. -/
theorem C3_counterexample :
    ((update_payment exPayDb 1 ⟨some (-1), some 0, some 0, none⟩).1.findPayment 1).map
        (·.status) = some PayStatus.paid ∧
    payStatusRule (-1 + 0) (-1 + 0 - 0) 0 = PayStatus.na := by
  with_unfolding_all exact ⟨rfl, rfl⟩

/-- C3 (amended): `update_payment` recomputes the stored status from the
effective fee/medicine-bill/amount-paid via its own branch chain
(`update_payment_status`); that chain coincides with the creation-time
four-branch rule whenever the effective total and the amount paid are
nonnegative; and the client-supplied `status` field never influences the
result. -/
theorem C3_update_payment_rederivation :
    (∀ (db : DB) (vid : ℕ) (req : PaymentUpdateReq) (cur : Payment),
      db.findPayment vid = some cur →
      ∃ pay, (update_payment db vid req).1.findPayment vid = some pay ∧
        pay.status = update_payment_status
          (req.consultation_fee.getD cur.consultation_fee
            + req.medicine_bill.getD cur.medicine_bill)
          (req.consultation_fee.getD cur.consultation_fee
            + req.medicine_bill.getD cur.medicine_bill
            - req.amount_paid.getD cur.amount_paid)
          (req.amount_paid.getD cur.amount_paid)) ∧
    (∀ total paid : ℚ, 0 ≤ total → 0 ≤ paid →
      update_payment_status total (total - paid) paid
        = payStatusRule total (total - paid) paid) ∧
    (∀ (db : DB) (vid : ℕ) (req : PaymentUpdateReq) (s : Option PayStatus),
      update_payment db vid { req with status := s } = update_payment db vid req) := by
  refine ⟨?_, update_payment_status_eq_rule, fun db vid req s => rfl⟩
  intro db vid req cur hcur
  obtain ⟨-, pay, hfind, hfee, hmed, hpaid, -, -, hst⟩ :=
    update_payment_spec db vid req cur hcur
  refine ⟨pay, hfind, ?_⟩
  rw [hst, hfee, hmed, hpaid]

/-- C3 witness: the re-derivation clause applied at fee 80, paid 30 over
the stored payment of visit 1; the rule-agreement clause at (80, 30). -/
theorem C3_update_payment_rederivation_witness :
    (∃ pay, (update_payment exPayDb 1 ⟨some 80, none, some 30, none⟩).1.findPayment 1
        = some pay ∧
      pay.status = update_payment_status
        ((some (80:ℚ)).getD examplePayment.consultation_fee
          + (none : Option ℚ).getD examplePayment.medicine_bill)
        ((some (80:ℚ)).getD examplePayment.consultation_fee
          + (none : Option ℚ).getD examplePayment.medicine_bill
          - (some (30:ℚ)).getD examplePayment.amount_paid)
        ((some (30:ℚ)).getD examplePayment.amount_paid)) ∧
    update_payment_status 80 (80 - 30) 30 = payStatusRule 80 (80 - 30) 30 :=
  ⟨C3_update_payment_rederivation.1 exPayDb 1 ⟨some 80, none, some 30, none⟩
      examplePayment (by with_unfolding_all rfl),
   C3_update_payment_rederivation.2.1 80 30 (by norm_num) (by norm_num)⟩

theorem stockOf_setPayments (db : DB) (l : List Payment) (k : ℕ) :
    stockOf (DB.mk db.remedies db.patients db.visits db.visit_medicines l db.nextVisitId) k
      = stockOf db k := rfl

theorem stockOf_setVisits (db : DB) (v : List (ℕ × Visit)) (n : ℕ) (k : ℕ) :
    stockOf (DB.mk db.remedies db.patients v db.visit_medicines db.payments n) k
      = stockOf db k := rfl

theorem findRemedy_setVisits (db : DB) (v : List (ℕ × Visit)) (n : ℕ) (k : ℕ) :
    (DB.mk db.remedies db.patients v db.visit_medicines db.payments n).findRemedy k
      = db.findRemedy k := rfl

theorem exDb_stock_nonneg : ∀ k, 0 ≤ stockOf exDb k := by
  intro k
  by_cases hk : k = 7
  · subst hk; decide
  · have hnone : exDb.findRemedy k = none := by
      show ((([(7, exampleRemedy)] : List (ℕ × Remedy)).find? (fun p => p.1 == k)).map (·.2))
        = none
      rw [List.find?_cons_of_neg]
      · rfl
      · intro hc
        apply hk
        have h7 : (7 : ℕ) = k := by simpa using hc
        exact h7.symm
    unfold stockOf
    rw [hnone]
    decide

/-- A successful medicines loop lowers a known remedy's stock by exactly
the net quantity the request carries for it. -/
theorem processMedicines_stock_drop (vid rid : ℕ) (items : List MedItem) :
    ∀ (db : DB) (c : ℚ) (db' : DB) (c' : ℚ),
      (db.findRemedy rid).isSome →
      processMedicines vid items db c = .ok (db', c') →
      stockOf db' rid = stockOf db rid - sumReqQtyFor items rid := by
  induction items with
  | nil =>
    intro db c db' c' _ h
    rw [processMedicines] at h
    cases h
    simp [sumReqQtyFor]
  | cons item rest ih =>
    intro db c db' c' hr h
    rw [processMedicines] at h
    cases hrem : db.findRemedy item.remedy_id with
    | none =>
      rw [hrem] at h
      have hne : (item.remedy_id == rid) = false := by
        rw [beq_eq_false_iff_ne]
        intro hc
        rw [hc] at hrem
        rw [hrem] at hr
        simp at hr
      have : sumReqQtyFor (item :: rest) rid = sumReqQtyFor rest rid := by
        simp [sumReqQtyFor, List.filter_cons, hne]
      rw [this]
      exact ih db c db' c' hr h
    | some r =>
      rw [hrem] at h
      dsimp only at h
      by_cases hst : r.stock_quantity < item.quantity.getD 1
      · rw [if_pos hst] at h; cases h
      · rw [if_neg hst] at h
        have hr2 : (((db.addVisitMedicine ⟨vid, item.remedy_id, item.quantity.getD 1,
            r.current_unit_price, r.current_unit_price * (item.quantity.getD 1 : ℚ)⟩).adjustStock
              item.remedy_id (-(item.quantity.getD 1))).findRemedy rid).isSome := by
          rw [findRemedy_isSome_adjustStock, findRemedy_addVisitMedicine]
          exact hr
        rw [ih _ _ _ _ hr2 h, stockOf_adjustStock, findRemedy_addVisitMedicine,
          stockOf_addVisitMedicine]
        by_cases hk : rid = item.remedy_id
        · have hbeq : (item.remedy_id == rid) = true := by simp [hk]
          have : sumReqQtyFor (item :: rest) rid
              = item.quantity.getD 1 + sumReqQtyFor rest rid := by
            simp [sumReqQtyFor, List.filter_cons, hbeq]
          rw [this, if_pos ⟨hk, hr⟩]
          ring
        · have hbeq : (item.remedy_id == rid) = false := by
            rw [beq_eq_false_iff_ne]
            intro hc
            exact hk hc.symm
          have : sumReqQtyFor (item :: rest) rid = sumReqQtyFor rest rid := by
            simp [sumReqQtyFor, List.filter_cons, hbeq]
          rw [this, if_neg (fun hc => hk hc.1)]

/-- Every error of the medicines loop is an `InsufficientStock`. -/
theorem processMedicines_error_form (vid : ℕ) (items : List MedItem) :
    ∀ (db : DB) (c : ℚ) (e : VErr),
      processMedicines vid items db c = .error e →
      ∃ rid, e = .insufficientStock rid := by
  induction items with
  | nil =>
    intro db c e h
    rw [processMedicines] at h
    cases h
  | cons item rest ih =>
    intro db c e h
    rw [processMedicines] at h
    cases hrem : db.findRemedy item.remedy_id with
    | none =>
      rw [hrem] at h
      exact ih db c e h
    | some r =>
      rw [hrem] at h
      dsimp only at h
      by_cases hst : r.stock_quantity < item.quantity.getD 1
      · rw [if_pos hst] at h
        cases h
        exact ⟨item.remedy_id, rfl⟩
      · rw [if_neg hst] at h
        exact ih _ _ e h

theorem create_visit_of_tx_ok (db : DB) (req : VisitReq) (now : String) (db' : DB) (vid : ℕ)
    (h : create_visit_tx db req now = .ok (db', vid)) :
    create_visit db req now = (db', .ok vid) := by
  unfold create_visit
  rw [h]

/-- A successful `create_visit` transaction keeps every remedy's stock
nonnegative when it started nonnegative. -/
theorem create_visit_tx_nonneg (db : DB) (req : VisitReq) (now : String) (db' : DB) (vid : ℕ)
    (hnn : ∀ k, 0 ≤ stockOf db k)
    (htx : create_visit_tx db req now = .ok (db', vid)) :
    ∀ k, 0 ≤ stockOf db' k := by
  rw [create_visit_tx] at htx
  cases hpt : db.findPatient req.patient_id with
  | none => rw [hpt] at htx; cases htx
  | some pt =>
    rw [hpt] at htx
    dsimp only at htx
    split at htx
    · cases htx
    · rename_i db3 med_cost heq
      cases htx
      intro k
      show 0 ≤ stockOf db3 k
      refine processMedicines_nonneg _ _ _ _ _ _ ?_ heq k
      intro j
      show 0 ≤ stockOf (applyPatientUpdates db req.patient_id req.patient_name
        req.patient_phone req.patient_age req.patient_gender) j
      rw [stockOf_applyPatientUpdates]
      exact hnn j

/-- A successful `create_visit` transaction lowers a known remedy's stock
by exactly the request's net quantity for it. -/
theorem create_visit_tx_stock_drop (db : DB) (req : VisitReq) (now : String)
    (db' : DB) (vid rid : ℕ) (items : List MedItem)
    (hmed : req.medicines = some items)
    (hr : (db.findRemedy rid).isSome)
    (htx : create_visit_tx db req now = .ok (db', vid)) :
    stockOf db' rid = stockOf db rid - sumReqQtyFor items rid := by
  rw [create_visit_tx] at htx
  cases hpt : db.findPatient req.patient_id with
  | none => rw [hpt] at htx; cases htx
  | some pt =>
    rw [hpt] at htx
    dsimp only at htx
    rw [hmed] at htx
    simp only [Option.getD_some] at htx
    split at htx
    · cases htx
    · rename_i db3 med_cost heq
      cases htx
      show stockOf db3 rid = _
      have hdrop := processMedicines_stock_drop _ rid items _ 0 db3 med_cost
        (by rw [findRemedy_setVisits, findRemedy_applyPatientUpdates]; exact hr) heq
      rw [hdrop, stockOf_setVisits, stockOf_applyPatientUpdates]

/-- C4: a request that over-demands any known remedy — in particular the
same-remedy two-item example (stock 5, quantities [3, 4]) — makes the
whole call fail with `InsufficientStock` and return the original store:
no stock change, no Visit/LineItem/Payment row.  First clause: any request
whose net demand for some known remedy exceeds its stock (all stocks
nonnegative) errors with some `InsufficientStock`; second clause: when all
items target that one remedy with nonnegative quantities, the error names
exactly that remedy. -/
theorem C4_insufficient_stock_atomic :
    (∀ (db : DB) (req : VisitReq) (now : String) (rid : ℕ) (items : List MedItem),
      req.medicines = some items →
      (db.findPatient req.patient_id).isSome →
      (∀ k, 0 ≤ stockOf db k) →
      (db.findRemedy rid).isSome →
      stockOf db rid < sumReqQtyFor items rid →
      ∃ rid', create_visit db req now = (db, .error (.insufficientStock rid'))) ∧
    (∀ (db : DB) (req : VisitReq) (now : String) (rid : ℕ) (items : List MedItem),
      req.medicines = some items →
      (db.findPatient req.patient_id).isSome →
      (∀ i ∈ items, i.remedy_id = rid ∧ 0 ≤ i.quantity.getD 1) →
      (db.findRemedy rid).isSome →
      0 ≤ stockOf db rid →
      stockOf db rid < sumReqQty items →
      create_visit db req now = (db, .error (.insufficientStock rid))) := by
  constructor
  · intro db req now rid items hmed hp hnnall hr hover
    cases hres : create_visit_tx db req now with
    | ok p =>
      exfalso
      cases p with
      | mk db2 vid =>
        have hdrop := create_visit_tx_stock_drop db req now db2 vid rid items hmed hr hres
        have hnn2 := create_visit_tx_nonneg db req now db2 vid hnnall hres rid
        rw [hdrop] at hnn2
        have := hnnall rid
        omega
    | error e =>
      have herr : ∃ rid', e = .insufficientStock rid' := by
        rw [create_visit_tx] at hres
        obtain ⟨pt, hpt⟩ := Option.isSome_iff_exists.mp hp
        rw [hpt] at hres
        dsimp only at hres
        split at hres
        · rename_i e0 heq0
          cases hres
          exact processMedicines_error_form _ _ _ _ _ heq0
        · cases hres
      obtain ⟨rid', hrid'⟩ := herr
      refine ⟨rid', ?_⟩
      unfold create_visit
      rw [hres, hrid']
  · intro db req now rid items hmed hp hall hr hnn hover
    have htx : create_visit_tx db req now = .error (.insufficientStock rid) := by
      unfold create_visit_tx
      obtain ⟨pt, hpt⟩ := Option.isSome_iff_exists.mp hp
      rw [hpt]
      dsimp only
      rw [hmed]
      simp only [Option.getD_some]
      rw [processMedicines_insufficient _ rid]
      · exact hall
      · show ((applyPatientUpdates db req.patient_id req.patient_name req.patient_phone
          req.patient_age req.patient_gender).findRemedy rid).isSome
        rw [findRemedy_applyPatientUpdates]
        exact hr
      · show 0 ≤ stockOf (applyPatientUpdates db req.patient_id req.patient_name
          req.patient_phone req.patient_age req.patient_gender) rid
        rw [stockOf_applyPatientUpdates]
        exact hnn
      · show stockOf (applyPatientUpdates db req.patient_id req.patient_name
          req.patient_phone req.patient_age req.patient_gender) rid < sumReqQty items
        rw [stockOf_applyPatientUpdates]
        exact hover
    unfold create_visit
    rw [htx]

/-- C4 witness: remedy 7 with stock 5 and quantities [3, 4] — total demand
7 > 5 — aborts with `InsufficientStock 7` and leaves the store untouched
(both the general and the same-remedy clause instantiated there). -/
theorem C4_insufficient_stock_atomic_witness :
    (∃ rid', create_visit exDb
        { emptyVisitReq with medicines := some [⟨7, some 3⟩, ⟨7, some 4⟩] } "d"
      = (exDb, .error (.insufficientStock rid'))) ∧
    create_visit exDb { emptyVisitReq with medicines := some [⟨7, some 3⟩, ⟨7, some 4⟩] } "d"
      = (exDb, .error (.insufficientStock 7)) :=
  ⟨C4_insufficient_stock_atomic.1 exDb
      { emptyVisitReq with medicines := some [⟨7, some 3⟩, ⟨7, some 4⟩] } "d" 7
      [⟨7, some 3⟩, ⟨7, some 4⟩] rfl (by with_unfolding_all rfl)
      exDb_stock_nonneg (by with_unfolding_all rfl) (by decide),
   C4_insufficient_stock_atomic.2 exDb
      { emptyVisitReq with medicines := some [⟨7, some 3⟩, ⟨7, some 4⟩] } "d" 7
      [⟨7, some 3⟩, ⟨7, some 4⟩] rfl (by with_unfolding_all rfl)
      (by decide) (by with_unfolding_all rfl) (by decide) (by decide)⟩

/-- C5 (counterexample): `update_remedy` writes `stock_quantity` directly
to the client value: starting from stock 5 it stores −5, violating both
"stock_quantity ≥ 0 at all times" and "mutated only through the ledger's
decrement/increment". -/
theorem C5_counterexample :
    stockOf exDb 7 = 5 ∧
    stockOf (update_remedy exDb 7 ⟨"Arnica", none, some "30C", none, 2, -5⟩) 7 = -5 ∧
    stockOf (update_remedy exDb 7 ⟨"Arnica", none, some "30C", none, 2, -5⟩) 7 < 0 := by
  with_unfolding_all exact ⟨rfl, rfl, by decide⟩

/-- C5 (amended): within visit creation, stock is mutated only through the
availability-checked per-line-item decrements, and these preserve
nonnegativity of every remedy's stock; the direct client-valued writes of
the remedy endpoints are the only way a negative stock can appear. -/
theorem C5_create_visit_preserves_nonneg_stock (db : DB) (req : VisitReq) (now : String)
    (hnn : ∀ k, 0 ≤ stockOf db k) :
    ∀ k, 0 ≤ stockOf (create_visit db req now).1 k := by
  unfold create_visit
  cases htx : create_visit_tx db req now with
  | error e => exact hnn
  | ok p =>
    cases p with
    | mk db2 vid =>
      dsimp only
      rw [create_visit_tx] at htx
      cases hpt : db.findPatient req.patient_id with
      | none => rw [hpt] at htx; cases htx
      | some pt =>
        rw [hpt] at htx
        dsimp only at htx
        split at htx
        · cases htx
        · rename_i db3 med_cost heq
          cases htx
          intro k
          show 0 ≤ stockOf db3 k
          refine processMedicines_nonneg _ _ _ _ _ _ ?_ heq k
          intro j
          show 0 ≤ stockOf (applyPatientUpdates db req.patient_id req.patient_name
            req.patient_phone req.patient_age req.patient_gender) j
          rw [stockOf_applyPatientUpdates]
          exact hnn j

/-- C5 witness: the nonnegativity clause evaluated over `exDb` at remedy 7
after a successful creation that decrements stock from 5 to 2. -/
theorem C5_create_visit_preserves_nonneg_stock_witness :
    0 ≤ stockOf (create_visit exDb
      { emptyVisitReq with medicines := some [⟨7, some 3⟩] } "d").1 7 :=
  C5_create_visit_preserves_nonneg_stock exDb
    { emptyVisitReq with medicines := some [⟨7, some 3⟩] } "d" exDb_stock_nonneg 7

/-- C7: a successful `update_visit` deletes all of the visit's old line
items and appends the freshly processed new ones, which are validated and
applied afresh from the request: in order, they are exactly the request's
items whose remedy id exists (quantity defaulting to 1), each snapshotting
the remedy's current unit price with `line_total = snapshot · quantity`,
and each re-passing the availability check — its quantity is at most the
restored stock minus the earlier new items' quantities for that remedy.
Each remedy's stock is restored by the old recorded quantities and
decremented by the new ones; and the payment row is rebuilt from scratch
from the request's fee and amount paid (default 0) and the new items' line
totals, with the same four-branch status rule as creation. -/
theorem C7_update_visit_rebuilds (db : DB) (vid : ℕ) (req : VisitUpdateReq) (uid : ℕ)
    (now : String) (h : (update_visit db vid req uid now).2 = .ok ()) :
    ∃ new : List VisitMedicine,
      (∀ m ∈ new, m.visit_id = vid) ∧
      (update_visit db vid req uid now).1.visit_medicines
        = db.visit_medicines.filter (fun m => m.visit_id != vid) ++ new ∧
      (∀ k, (db.findRemedy k).isSome →
        stockOf (update_visit db vid req uid now).1 k
          = stockOf db k + sumQtyFor (visitItems db vid) k - sumQtyFor new k) ∧
      new.map (fun m => (m.remedy_id, m.quantity))
        = ((req.medicines.getD []).filter (fun i => (db.findRemedy i.remedy_id).isSome)).map
            (fun i => (i.remedy_id, i.quantity.getD 1)) ∧
      (∀ m ∈ new, (db.findRemedy m.remedy_id).isSome
        ∧ m.unit_price_snapshot = priceOf db m.remedy_id
        ∧ m.line_total = m.unit_price_snapshot * (m.quantity : ℚ)) ∧
      (∀ pre m post, new = pre ++ m :: post →
        m.quantity ≤ stockOf db m.remedy_id + sumQtyFor (visitItems db vid) m.remedy_id
          - sumQtyFor pre m.remedy_id) ∧
      ∃ pay, (update_visit db vid req uid now).1.findPayment vid = some pay ∧
        pay.consultation_fee = req.consultation_fee.getD 0 ∧
        pay.medicine_bill = sumLineTotals new ∧
        pay.amount_paid = req.amount_paid.getD 0 ∧
        pay.total_bill = req.consultation_fee.getD 0 + sumLineTotals new ∧
        pay.due_amount = req.consultation_fee.getD 0 + sumLineTotals new
          - req.amount_paid.getD 0 ∧
        pay.status = payStatusRule (req.consultation_fee.getD 0 + sumLineTotals new)
          (req.consultation_fee.getD 0 + sumLineTotals new - req.amount_paid.getD 0)
          (req.amount_paid.getD 0) :=
  update_visit_tx_ok db vid req uid now _ (update_visit_tx_of_ok db vid req uid now h)

/-- C7 witness: amending visit 1 of `exVisitDb` (old item: remedy 7,
quantity 2) to a single new item of quantity 3 with fee 10 and paid 20. -/
theorem C7_update_visit_rebuilds_witness :
    ∃ new : List VisitMedicine,
      (∀ m ∈ new, m.visit_id = 1) ∧
      (update_visit exVisitDb 1 ⟨none, none, none, none, none, none, none, none, none,
          some [⟨7, some 3⟩], some 10, some 20⟩ 9 "t").1.visit_medicines
        = exVisitDb.visit_medicines.filter (fun m => m.visit_id != 1) ++ new ∧
      (∀ k, (exVisitDb.findRemedy k).isSome →
        stockOf (update_visit exVisitDb 1 ⟨none, none, none, none, none, none, none, none,
            none, some [⟨7, some 3⟩], some 10, some 20⟩ 9 "t").1 k
          = stockOf exVisitDb k + sumQtyFor (visitItems exVisitDb 1) k - sumQtyFor new k) ∧
      new.map (fun m => (m.remedy_id, m.quantity))
        = (([⟨7, some 3⟩] : List MedItem).filter
            (fun i => (exVisitDb.findRemedy i.remedy_id).isSome)).map
            (fun i => (i.remedy_id, i.quantity.getD 1)) ∧
      (∀ m ∈ new, (exVisitDb.findRemedy m.remedy_id).isSome
        ∧ m.unit_price_snapshot = priceOf exVisitDb m.remedy_id
        ∧ m.line_total = m.unit_price_snapshot * (m.quantity : ℚ)) ∧
      (∀ pre m post, new = pre ++ m :: post →
        m.quantity ≤ stockOf exVisitDb m.remedy_id
          + sumQtyFor (visitItems exVisitDb 1) m.remedy_id - sumQtyFor pre m.remedy_id) ∧
      ∃ pay, (update_visit exVisitDb 1 ⟨none, none, none, none, none, none, none, none,
          none, some [⟨7, some 3⟩], some 10, some 20⟩ 9 "t").1.findPayment 1 = some pay ∧
        pay.consultation_fee = (10 : ℚ) ∧
        pay.medicine_bill = sumLineTotals new ∧
        pay.amount_paid = (20 : ℚ) ∧
        pay.total_bill = (10 : ℚ) + sumLineTotals new ∧
        pay.due_amount = (10 : ℚ) + sumLineTotals new - (20 : ℚ) ∧
        pay.status = payStatusRule ((10 : ℚ) + sumLineTotals new)
          ((10 : ℚ) + sumLineTotals new - (20 : ℚ)) (20 : ℚ) :=
  C7_update_visit_rebuilds exVisitDb 1 ⟨none, none, none, none, none, none, none, none,
    none, some [⟨7, some 3⟩], some 10, some 20⟩ 9 "t" (by with_unfolding_all rfl)

/-- C9 (counterexample): a line item with quantity −2 for remedy 7 (stock
5) is accepted: the call succeeds, the line item is stored with quantity
−2 and line total −4, and the stock *increases* from 5 to 7 — contradicting
"a zero or negative quantity never results in a stored line item or a
stock change". -/
theorem C9_counterexample :
    (create_visit exDb { emptyVisitReq with medicines := some [⟨7, some (-2)⟩] } "d").2
      = .ok 1 ∧
    (create_visit exDb
        { emptyVisitReq with medicines := some [⟨7, some (-2)⟩] } "d").1.visit_medicines
      = [⟨1, 7, -2, 2, -4⟩] ∧
    stockOf (create_visit exDb
      { emptyVisitReq with medicines := some [⟨7, some (-2)⟩] } "d").1 7 = 7 := by
  with_unfolding_all exact ⟨rfl, rfl, rfl⟩

/-- C9 (amended): for a single-item request on an existing remedy, any
integer quantity `q` with `q ≤ stock` — including zero and negatives — is
persisted verbatim in the line item (with line total `price·q`) and the
stock changes by `−q`. -/
theorem C9_quantity_stored_verbatim (db : DB) (req : VisitReq) (now : String)
    (rid : ℕ) (q : ℤ) (r : Remedy)
    (hp : (db.findPatient req.patient_id).isSome)
    (hm : req.medicines = some [⟨rid, some q⟩])
    (hr : db.findRemedy rid = some r)
    (hq : q ≤ r.stock_quantity) :
    (create_visit db req now).2 = .ok db.nextVisitId ∧
    (create_visit db req now).1.visit_medicines
      = db.visit_medicines ++ [⟨db.nextVisitId, rid, q, r.current_unit_price,
          r.current_unit_price * (q : ℚ)⟩] ∧
    stockOf (create_visit db req now).1 rid = r.stock_quantity - q := by
  unfold create_visit create_visit_tx
  obtain ⟨pt, hpt⟩ := Option.isSome_iff_exists.mp hp
  rw [hpt]
  dsimp only
  rw [hm]
  simp only [Option.getD_some]
  rw [processMedicines_singleton _ rid q _ _ r]
  · dsimp only
    refine ⟨?_, ?_, ?_⟩
    · rw [applyPatientUpdates_nextVisitId]
    · show (applyPatientUpdates db req.patient_id req.patient_name req.patient_phone
        req.patient_age req.patient_gender).visit_medicines ++ _ = _
      rw [applyPatientUpdates_visit_medicines, applyPatientUpdates_nextVisitId]
    · rw [stockOf_setPayments, stockOf_adjustStock]
      rw [if_pos ⟨rfl, by
        rw [findRemedy_addVisitMedicine, findRemedy_setVisits, findRemedy_applyPatientUpdates, hr]
        rfl⟩]
      rw [stockOf_addVisitMedicine, stockOf_setVisits, stockOf_applyPatientUpdates,
        stockOf_eq_of_findRemedy db rid r hr]
      ring
  · rw [findRemedy_setVisits, findRemedy_applyPatientUpdates]
    exact hr
  · exact not_lt.mpr hq

/-- C9 witness for the amended statement: quantity −2 against stock 5. -/
theorem C9_quantity_stored_verbatim_witness :
    (create_visit exDb { emptyVisitReq with medicines := some [⟨7, some (-2)⟩] } "d").2
      = .ok exDb.nextVisitId ∧
    (create_visit exDb
        { emptyVisitReq with medicines := some [⟨7, some (-2)⟩] } "d").1.visit_medicines
      = exDb.visit_medicines ++ [⟨exDb.nextVisitId, 7, -2,
          exampleRemedy.current_unit_price, exampleRemedy.current_unit_price * ((-2 : ℤ) : ℚ)⟩] ∧
    stockOf (create_visit exDb
      { emptyVisitReq with medicines := some [⟨7, some (-2)⟩] } "d").1 7
      = exampleRemedy.stock_quantity - (-2) :=
  C9_quantity_stored_verbatim exDb
    { emptyVisitReq with medicines := some [⟨7, some (-2)⟩] } "d" 7 (-2) exampleRemedy
    (by with_unfolding_all rfl) rfl (by with_unfolding_all rfl) (by decide)

/-- C10 (counterexample): a request that includes `patient_age = 0` (a
present but falsy field) does not overwrite the patient's age: the visit is
created and the age stays 30 — contradicting "includes the field ⇒
overwrites the corresponding patient field". -/
theorem C10_counterexample :
    (create_visit exDb { emptyVisitReq with patient_age := some 0 } "d").2 = .ok 1 ∧
    (create_visit exDb { emptyVisitReq with patient_age := some 0 } "d").1.findPatient 1
      = some ⟨"Asha", some 30, some "017", some "F"⟩ := by
  with_unfolding_all exact ⟨rfl, rfl⟩

/-- C10 (amended): on a successful visit creation, each of the four
patient fields of the referenced patient is overwritten exactly when the
request carries a *truthy* value for it (non-empty string, non-zero age),
and kept unchanged when the field is absent or falsy. -/
theorem C10_truthy_fields_overwrite (db : DB) (req : VisitReq) (now : String) (vid : ℕ)
    (pt : Patient) (h : (create_visit db req now).2 = .ok vid)
    (hpt : db.findPatient req.patient_id = some pt) :
    (create_visit db req now).1.findPatient req.patient_id =
      some ⟨if truthyS req.patient_name then req.patient_name.getD "" else pt.name,
            if truthyI req.patient_age then req.patient_age else pt.age,
            if truthyS req.patient_phone then req.patient_phone else pt.phone,
            if truthyS req.patient_gender then req.patient_gender else pt.gender⟩ := by
  have htx := create_visit_tx_of_ok db req now vid h
  obtain ⟨pt2, new, c1, c2, c3, c4, c5, c6, c7, c8, c9, c10⟩ :=
    create_visit_tx_ok _ _ _ _ _ htx
  have he := findPatient_eq_of_patients _ _ c3 req.patient_id
  rw [he, findPatient_applyPatientUpdates, hpt, Option.map_some']

/-- C10 witness: a truthy name overwrites, a falsy age (0) does not. -/
theorem C10_truthy_fields_overwrite_witness :
    (create_visit exDb
        { emptyVisitReq with patient_name := some "New", patient_age := some 0 } "d").1.findPatient 1 =
      some ⟨if truthyS (some "New") then (some "New").getD "" else examplePatient.name,
            if truthyI (some 0) then some 0 else examplePatient.age,
            if truthyS (none : Option String) then none else examplePatient.phone,
            if truthyS (none : Option String) then none else examplePatient.gender⟩ :=
  C10_truthy_fields_overwrite exDb
    { emptyVisitReq with patient_name := some "New", patient_age := some 0 } "d" 1
    examplePatient (by with_unfolding_all rfl) (by with_unfolding_all rfl)
